import Mathlib

/-!
Shallow embedding of the ZoneRepo cascade-simulation core.

The embedded code consists of three JavaScript modules:
* `cascadeSimulation` (runCascadeSimulation and its helpers),
* the response-surface builder (buildResponseSurface, aggregateMetrics),
* the regulatory-threshold deriver (deriveRegulatoryThresholds, spatialFocusKey, maxBy).

Modelling conventions:
* JS numbers are modelled as `ℚ`.  Division by zero is `0` in `ℚ`; the embedded
  code only divides by guarded denominators (`x > 0 ? x : 1`, `x || 1`), except in
  the kernel branch of `computeSpatialFocusWeights`, where the JS `(p / c) || 0`
  turns a `NaN` from `0 / 0` into `0`, which the `ℚ` convention reproduces.
* `Math.pow` is a host primitive (called with a fractional exponent), so it is
  passed in as an explicit function parameter `jsPow : ℚ → ℚ → ℚ`.
* `Math.random`, used when no `rngFactory` is configured, is modelled as an
  explicit per-invocation stream `ambient : Nat → ℚ`; a seeded generator returned
  by `rngFactory` is a stream `Nat → ℚ` indexed by the order of the calls.
* JS objects used as string-keyed dictionaries are association lists
  `List (String × ℚ)`; reading a missing key with `|| 0` is `rmGet`.
* JS array sort on strings (UTF-16 lexicographic) is modelled by the
  codepoint-lexicographic comparison `strLe`, which agrees with it on the
  ASCII identifiers used throughout.
* The in-place `centerIds.sort()` mutation performed by `spatialFocusKey` is
  modelled by state passing: `deriveRegulatoryThresholds` returns the result
  together with the post-call contents of its input surface.
-/

/-- Region-indexed numeric map, modelling a JS object used as a dictionary. -/
abbrev RegionMap := List (String × ℚ)

/-- Property read with default 0, modelling `obj[key] || 0` (and plain `obj[key]`
on maps that are known to contain the key). -/
def rmGet : RegionMap → String → ℚ
  | [], _ => 0
  | (k, v) :: rest, r => if r = k then v else rmGet rest r

/-- JS helper `clamp01`: `Math.max(0, Math.min(1, x))`. -/
def clamp01 (x : ℚ) : ℚ := max 0 (min 1 x)

/-- Codepoint-lexicographic comparison on char lists, modelling the default JS
array sort comparator on strings. -/
def charListLe : List Char → List Char → Bool
  | [], _ => true
  | _ :: _, [] => false
  | a :: as, b :: bs =>
    if a.toNat < b.toNat then true
    else if b.toNat < a.toNat then false
    else charListLe as bs

/-- String comparison used to model the default JS `Array.prototype.sort`. -/
def strLe (a b : String) : Bool := charListLe a.data b.data

/-- The string "uniform". -/
def uniformTag : String := "uniform"

/-- The string "explicit". -/
def explicitTag : String := "explicit"

/-- The string "kernel". -/
def kernelTag : String := "kernel"

/-- The string "other". -/
def otherTag : String := "other"

/-- The string "kernel:" used to build canonical kernel keys. -/
def kernelKeyHead : String := "kernel:"

/-- The string ",". -/
def commaTag : String := ","

/-- The empty string. -/
def emptyTag : String := ""

/-- The message returned when no surface cell satisfies the risk constraints. -/
def noSafeRegionMessage : String := "No parameter region satisfies risk constraints."

/-- `theta.spatialFocus`: a tagged record with a `type` string and optional
`centerIds` / `weights` properties. -/
structure SpatialFocus where
  type : String
  centerIds : Option (List String)
  weights : Option (List (String × ℚ))
deriving DecidableEq

/-- One outgoing mobility edge `{ to, weight }`. -/
structure MobEdge where
  dest : String
  weight : ℚ
deriving DecidableEq

/-- `mobilityGraph`: map from a source region to its outgoing edges. -/
abbrev MobilityGraph := List (String × List MobEdge)

/-- The density provider capability set used by the simulator
(`listRegions` and `getDensity`; `getRegionAttributes` is never called). -/
structure DensityProvider where
  listRegions : List String
  getDensity : String → ℚ → ℚ

/-- `theta`, the per-run parameter vector. -/
structure Theta where
  seedFraction : ℚ
  spatialFocus : Option SpatialFocus
  signalStrength : ℚ
  timeHorizon : ℚ
  dt : ℚ
  randomSeed : Option Nat

/-- `adoptionParams`: an option bag; absent fields take the inline defaults of
the JS destructurings. -/
structure AdoptionParams where
  exposureScale : Option ℚ
  fearSensitivity : Option ℚ
  maxRate : Option ℚ
  localWeight : Option ℚ
  importedWeight : Option ℚ
  baseContact : Option ℚ
  densityExponent : Option ℚ
deriving DecidableEq

/-- `fearParams`: an option bag; absent fields take the inline defaults. -/
structure FearParams where
  kExposure : Option ℚ
  kGrowth : Option ℚ
  kHarm : Option ℚ
  decay : Option ℚ
  nonLinearSpike : Option Bool
  spikeThreshold : Option ℚ
  spikeGain : Option ℚ
  criticalFear : Option ℚ
  materialAdoption : Option ℚ
  criticalPopShare : Option ℚ
deriving DecidableEq

/-- `simConfig.harmWeights`, read by `computeHarmSignal` with default `{}`. -/
structure HarmWeights where
  adoption : Option ℚ
  fear : Option ℚ
  exposure : Option ℚ
deriving DecidableEq

/-- `simConfig` for one run.  `rngFactory` absent means the code falls back to
`Math.random` (the ambient stream). -/
structure SimConfig where
  fearParams : FearParams
  adoptionParams : AdoptionParams
  popByRegion : RegionMap
  initialFearByRegion : RegionMap
  rngFactory : Option (Nat → Nat → ℚ)
  harmWeights : HarmWeights

/-- JS `computeSpatialFocusWeights(regions, spatialFocus, popByRegion)`. -/
def computeSpatialFocusWeights (regions : List String) (spatialFocus : Option SpatialFocus)
    (popByRegion : RegionMap) : RegionMap :=
  match spatialFocus with
  | none => regions.map (fun r => (r, 1 / (regions.length : ℚ)))
  | some sf =>
    if sf.type = uniformTag then
      regions.map (fun r => (r, 1 / (regions.length : ℚ)))
    else if sf.type = explicitTag ∧ sf.weights.isSome then
      let raw := sf.weights.getD []
      let s0 := (raw.map Prod.snd).sum
      let s := if s0 = 0 then 1 else s0
      regions.map (fun r => (r, rmGet raw r / s))
    else if sf.type = kernelTag ∧ (sf.centerIds.getD []) ≠ [] then
      let centers := sf.centerIds.getD []
      let centerPop := (regions.filter (fun r => centers.contains r)).foldl
        (fun s r => s + rmGet popByRegion r) 0
      let totalPop0 := (regions.map (fun r => rmGet popByRegion r)).sum
      let totalPop := if totalPop0 = 0 then 1 else totalPop0
      regions.map (fun r =>
        if centers.contains r then (r, rmGet popByRegion r / centerPop)
        else (r, (1 / 1000) * (rmGet popByRegion r / totalPop)))
    else
      regions.map (fun r => (r, 1 / (regions.length : ℚ)))

/-- JS `initializeAdoption`: proportional seeding with jitter; the `rng` stream
is consumed once per region in list order. -/
def setupAdoption (regions : List String) (seedFraction : ℚ)
    (spatialFocus : Option SpatialFocus) (popByRegion : RegionMap)
    (rng : Nat → ℚ) : RegionMap :=
  let totalPop := (regions.map (fun r => rmGet popByRegion r)).sum
  let targetSeedPop := totalPop * seedFraction
  let weights := computeSpatialFocusWeights regions spatialFocus popByRegion
  regions.enum.map (fun p =>
    let r := p.2
    let w := rmGet weights r
    let regionPop := rmGet popByRegion r
    let expectedSeeds := (w * targetSeedPop) / (if 0 < regionPop then regionPop else 1)
    let frac := min 1 (expectedSeeds / (if regionPop = 0 then 1 else regionPop))
    let jitter := (rng p.1 - 1 / 2) * (1 / 10)
    (r, clamp01 (frac + jitter)))

/-- JS `initializeFear`: `F[r] = initialFearByRegion[r] || 0` (no flooring). -/
def setupFear (regions : List String) (initialFearByRegion : RegionMap) : RegionMap :=
  regions.map (fun r => (r, rmGet initialFearByRegion r))

/-- JS `localContactFunction(density, adoptionParams)` with the host `Math.pow`
passed in as `jsPow`. -/
def localContactFunction (jsPow : ℚ → ℚ → ℚ) (density : ℚ) (ap : AdoptionParams) : ℚ :=
  (ap.baseContact.getD (1 / 100)) * jsPow (density + 1) (ap.densityExponent.getD (1 / 2))

/-- JS `reverseEdgesForRegion`: incoming `(from, weight)` pairs of a region. -/
def reverseEdgesForRegion (target : String) (graph : MobilityGraph) : List (String × ℚ) :=
  graph.flatMap (fun p => (p.2.filter (fun e => e.dest = target)).map (fun e => (p.1, e.weight)))

/-- JS `computeExposure`: per-region exposure from local contact plus imported
adoption along reversed mobility edges, scaled by the signal strength. -/
def computeExposure (jsPow : ℚ → ℚ → ℚ) (regions : List String) (A : RegionMap)
    (dp : DensityProvider) (graph : MobilityGraph) (signalStrength : ℚ)
    (ap : AdoptionParams) : RegionMap :=
  let localWeight := ap.localWeight.getD 1
  let importedWeight := ap.importedWeight.getD 1
  regions.map (fun i =>
    let localDensity := dp.getDensity i 0
    let localContactRate := localContactFunction jsPow localDensity ap
    let localExposure := localWeight * localContactRate * rmGet A i
    let importedExposure :=
      ((reverseEdgesForRegion i graph).map (fun e => e.2 * rmGet A e.1)).sum
    (i, signalStrength * (localExposure + importedWeight * importedExposure)))

/-- JS `adoptionIncrement(a, f, e, adoptionParams)`. -/
def adoptionIncrement (a f e : ℚ) (ap : AdoptionParams) : ℚ :=
  let exposureScale := ap.exposureScale.getD 1
  let fearSensitivity := ap.fearSensitivity.getD 1
  let maxRate := ap.maxRate.getD (1 / 5)
  let effectiveExposure := e * exposureScale
  let fearFactor := 1 / (1 + fearSensitivity * f)
  let rawGrowth := effectiveExposure * fearFactor * (1 - a)
  min maxRate rawGrowth

/-- JS `computeHarmSignal(regionId, A, F, exposure, simConfig)`. -/
def computeHarmSignal (regionId : String) (A F exposure : RegionMap)
    (cfg : SimConfig) : ℚ :=
  (cfg.harmWeights.adoption.getD 0) * rmGet A regionId
    + (cfg.harmWeights.fear.getD 0) * rmGet F regionId
    + (cfg.harmWeights.exposure.getD 0) * rmGet exposure regionId

/-- JS `fearIncrement(f, e, dA, harmSignal, fearParams)`. -/
def fearIncrement (f e dA harmSignal : ℚ) (fp : FearParams) : ℚ :=
  let kExposure := fp.kExposure.getD (1 / 10)
  let kGrowth := fp.kGrowth.getD (1 / 2)
  let kHarm := fp.kHarm.getD 1
  let decay := fp.decay.getD (1 / 20)
  let nonLinearSpike := fp.nonLinearSpike.getD true
  let spikeThreshold := fp.spikeThreshold.getD (1 / 5)
  let spikeGain := fp.spikeGain.getD 2
  let driver := kExposure * e + kGrowth * max 0 dA + kHarm * harmSignal
  let driver2 := if nonLinearSpike ∧ spikeThreshold < driver then driver * spikeGain else driver
  driver2 - decay * f

/-- The mutable state of one run: the adoption map `A` and the fear map `F`. -/
structure SimState where
  A : RegionMap
  F : RegionMap
deriving DecidableEq

/-- One committed update of the simulation loop body (exposure computation,
adoption and fear updates over all regions, then the commit). -/
def simStep (jsPow : ℚ → ℚ → ℚ) (dp : DensityProvider) (graph : MobilityGraph)
    (signalStrength : ℚ) (cfg : SimConfig) (s : SimState) : SimState :=
  let regions := dp.listRegions
  let exposure := computeExposure jsPow regions s.A dp graph signalStrength cfg.adoptionParams
  let newA := regions.map (fun r =>
    (r, clamp01 (rmGet s.A r
      + adoptionIncrement (rmGet s.A r) (rmGet s.F r) (rmGet exposure r) cfg.adoptionParams)))
  let newF := regions.map (fun r =>
    let dA := adoptionIncrement (rmGet s.A r) (rmGet s.F r) (rmGet exposure r) cfg.adoptionParams
    let harmSignal := computeHarmSignal r s.A s.F exposure cfg
    (r, max 0 (rmGet s.F r
      + fearIncrement (rmGet s.F r) (rmGet exposure r) dA harmSignal cfg.fearParams)))
  ⟨newA, newF⟩

/-- The initial state: seeded adoption and copied initial fear.  The RNG is the
seeded factory stream when `rngFactory` is configured, otherwise the ambient
`Math.random` stream of this invocation. -/
def simInit (ambient : Nat → ℚ) (theta : Theta) (dp : DensityProvider)
    (cfg : SimConfig) : SimState :=
  let rng : Nat → ℚ :=
    match cfg.rngFactory with
    | some factory => factory (theta.randomSeed.getD 0)
    | none => ambient
  ⟨setupAdoption dp.listRegions theta.seedFraction theta.spatialFocus cfg.popByRegion rng,
   setupFear dp.listRegions cfg.initialFearByRegion⟩

/-- The states observed by the `for (step = 0; step <= T; step++)` loop:
a snapshot is taken at every step and the update is skipped at the last one,
so the trace of `n` updates has `n + 1` entries. -/
def simTrace (f : SimState → SimState) : Nat → SimState → List SimState
  | 0, s => [s]
  | n + 1, s => s :: simTrace f n (f s)

/-- One history snapshot `{ t, values }`. -/
structure Snapshot where
  t : ℚ
  values : RegionMap
deriving DecidableEq

/-- The run history: parallel snapshot sequences for `A` and `F`. -/
structure History where
  A : List Snapshot
  F : List Snapshot
deriving DecidableEq

/-- Per-region peak metrics. -/
structure PerRegionMetrics where
  peakAdoption : ℚ
  peakFear : ℚ
  peakAdoptionTime : Option ℚ
  peakFearTime : Option ℚ
deriving DecidableEq

/-- The summary metrics of one run. -/
structure Metrics where
  globalPeakAdoption : ℚ
  globalPeakFear : ℚ
  peakAdoptionTime : Option ℚ
  peakFearTime : Option ℚ
  perRegion : List (String × PerRegionMetrics)
  harmfulCascadeOccurred : Bool
deriving DecidableEq

/-- Accumulator of the first metrics loop. -/
structure PeakAcc where
  globalPeakAdoption : ℚ
  globalPeakFear : ℚ
  peakAdoptionTime : Option ℚ
  peakFearTime : Option ℚ
  perRegion : List (String × PerRegionMetrics)
deriving DecidableEq

/-- population total with the `|| 1` divide-by-zero guard of the metrics code. -/
def popTotalOf (regions : List String) (popByRegion : RegionMap) : ℚ :=
  let s := (regions.map (fun r => rmGet popByRegion r)).sum
  if s = 0 then 1 else s

/-- Body of the first metrics loop for one snapshot pair. -/
def updatePeaks (regions : List String) (popByRegion : RegionMap) (popTotal : ℚ)
    (acc : PeakAcc) (pair : Snapshot × Snapshot) : PeakAcc :=
  let t := pair.1.t
  let Avals := pair.1.values
  let Fvals := pair.2.values
  let perRegion := acc.perRegion.map (fun q =>
    let a := rmGet Avals q.1
    let f := rmGet Fvals q.1
    let m := q.2
    let m1 := if m.peakAdoption < a then
      { m with peakAdoption := a, peakAdoptionTime := some t } else m
    let m2 := if m1.peakFear < f then
      { m1 with peakFear := f, peakFearTime := some t } else m1
    (q.1, m2))
  let totalAdoptedPop := (regions.map (fun r => rmGet Avals r * rmGet popByRegion r)).sum
  let totalFearWeightedPop := (regions.map (fun r => rmGet Fvals r * rmGet popByRegion r)).sum
  let avgAdoption := totalAdoptedPop / popTotal
  let avgFear := totalFearWeightedPop / popTotal
  let acc1 := if acc.globalPeakAdoption < avgAdoption then
    { acc with globalPeakAdoption := avgAdoption, peakAdoptionTime := some t, perRegion := perRegion }
    else { acc with perRegion := perRegion }
  if acc1.globalPeakFear < avgFear then
    { acc1 with globalPeakFear := avgFear, peakFearTime := some t }
  else acc1

/-- Population at risk in one snapshot: regions whose adoption and fear both
reach the material/critical thresholds. -/
def snapshotPopAtRisk (regions : List String) (popByRegion : RegionMap)
    (materialAdoption criticalFear : ℚ) (Avals Fvals : RegionMap) : ℚ :=
  regions.foldl (fun s r =>
    if materialAdoption ≤ rmGet Avals r ∧ criticalFear ≤ rmGet Fvals r
    then s + rmGet popByRegion r else s) 0

/-- The harmful-cascade scan: walks snapshot pairs in order and stops at the
first one whose at-risk population share reaches the critical share. -/
def harmfulScan (regions : List String) (popByRegion : RegionMap)
    (popTotal materialAdoption criticalFear criticalPopShare : ℚ) :
    List (Snapshot × Snapshot) → Bool
  | [] => false
  | pair :: rest =>
    if criticalPopShare ≤
        snapshotPopAtRisk regions popByRegion materialAdoption criticalFear
          pair.1.values pair.2.values / popTotal
    then true
    else harmfulScan regions popByRegion popTotal materialAdoption criticalFear
      criticalPopShare rest

/-- JS `computeSimulationMetrics(history, regions, popByRegion, fearParams)`. -/
def computeSimulationMetrics (history : History) (regions : List String)
    (popByRegion : RegionMap) (fp : FearParams) : Metrics :=
  let popTotal := popTotalOf regions popByRegion
  let pairs := history.A.zip history.F
  let acc0 : PeakAcc :=
    ⟨0, 0, none, none, regions.map (fun r => (r, ⟨0, 0, none, none⟩))⟩
  let acc := pairs.foldl (updatePeaks regions popByRegion popTotal) acc0
  let harmful := harmfulScan regions popByRegion popTotal
    (fp.materialAdoption.getD (3 / 10)) (fp.criticalFear.getD (7 / 10))
    (fp.criticalPopShare.getD (1 / 10)) pairs
  { globalPeakAdoption := acc.globalPeakAdoption
    globalPeakFear := acc.globalPeakFear
    peakAdoptionTime := acc.peakAdoptionTime
    peakFearTime := acc.peakFearTime
    perRegion := acc.perRegion
    harmfulCascadeOccurred := harmful }

/-- The result of one run. -/
structure SimResult where
  history : History
  metrics : Metrics
deriving DecidableEq

/-- JS `runCascadeSimulation(theta, densityProvider, mobilityGraph, simConfig)`.
`T = Math.floor(timeHorizon / dt)`; the loop takes `T + 1` snapshots when
`T ≥ 0` and none otherwise; the snapshot at step `k` carries `t = k * dt`. -/
def runCascadeSimulation (jsPow : ℚ → ℚ → ℚ) (ambient : Nat → ℚ) (theta : Theta)
    (dp : DensityProvider) (graph : MobilityGraph) (cfg : SimConfig) : SimResult :=
  let T : Int := Int.floor (theta.timeHorizon / theta.dt)
  let states :=
    if T < 0 then []
    else simTrace (simStep jsPow dp graph theta.signalStrength cfg) T.toNat
      (simInit ambient theta dp cfg)
  let histA := states.enum.map (fun p => Snapshot.mk ((p.1 : ℚ) * theta.dt) p.2.A)
  let histF := states.enum.map (fun p => Snapshot.mk ((p.1 : ℚ) * theta.dt) p.2.F)
  let history : History := ⟨histA, histF⟩
  ⟨history, computeSimulationMetrics history dp.listRegions cfg.popByRegion cfg.fearParams⟩

/-- One response-surface cell `{seedFraction, signalStrength, spatialFocus, stats}`. -/
structure AggStats where
  meanGlobalPeakAdoption : ℚ
  meanGlobalPeakFear : ℚ
  probabilityHarmful : ℚ
  raw : List Metrics
deriving DecidableEq

/-- JS `aggregateMetrics(metricsArray)` with the `length || 1` guard. -/
def aggregateMetrics (metricsArray : List Metrics) : AggStats :=
  let n : ℚ := if metricsArray.length = 0 then 1 else (metricsArray.length : ℚ)
  { meanGlobalPeakAdoption := (metricsArray.map (fun m => m.globalPeakAdoption)).sum / n
    meanGlobalPeakFear := (metricsArray.map (fun m => m.globalPeakFear)).sum / n
    probabilityHarmful :=
      (((metricsArray.filter (fun m => m.harmfulCascadeOccurred)).length : ℚ)) / n
    raw := metricsArray }

/-- A grid cell of the response surface. -/
structure SurfaceCell where
  seedFraction : ℚ
  signalStrength : ℚ
  spatialFocus : Option SpatialFocus
  stats : AggStats
deriving DecidableEq

/-- `paramGrid` of the response-surface builder. -/
structure ParamGrid where
  seedFractions : List ℚ
  signalStrengths : List ℚ
  spatialFocusOptions : List (Option SpatialFocus)

/-- `baseSimConfig`: the shared `simConfig` plus the `timeHorizon` and `dt`
fields read by the builder when assembling each theta. -/
structure BaseSimConfig where
  core : SimConfig
  timeHorizon : ℚ
  dt : ℚ

/-- The builder-level `simConfig` record. -/
structure SurfaceConfig where
  densityProvider : DensityProvider
  mobilityGraph : MobilityGraph
  baseSimConfig : BaseSimConfig
  runsPerPoint : Nat

/-- The metrics of the `runsPerPoint` runs of one grid point, with
`randomSeed = 0 .. runsPerPoint - 1`. -/
def cellRuns (jsPow : ℚ → ℚ → ℚ) (ambient : Nat → ℚ) (sc : SurfaceConfig)
    (sf ss : ℚ) (focus : Option SpatialFocus) : List Metrics :=
  (List.range sc.runsPerPoint).map (fun k =>
    (runCascadeSimulation jsPow ambient
      { seedFraction := sf, spatialFocus := focus, signalStrength := ss,
        timeHorizon := sc.baseSimConfig.timeHorizon, dt := sc.baseSimConfig.dt,
        randomSeed := some k }
      sc.densityProvider sc.mobilityGraph sc.baseSimConfig.core).metrics)

/-- JS `buildResponseSurface(paramGrid, simConfig)`: three nested loops pushing
one aggregated cell per grid point into the surface accumulator. -/
def buildResponseSurface (jsPow : ℚ → ℚ → ℚ) (ambient : Nat → ℚ)
    (grid : ParamGrid) (sc : SurfaceConfig) : List SurfaceCell :=
  grid.seedFractions.foldl (fun acc1 sf =>
    grid.signalStrengths.foldl (fun acc2 ss =>
      grid.spatialFocusOptions.foldl (fun acc3 focus =>
        acc3 ++ [{ seedFraction := sf, signalStrength := ss, spatialFocus := focus,
                   stats := aggregateMetrics (cellRuns jsPow ambient sc sf ss focus) }])
        acc2) acc1) []

/-- `riskConstraints` of the threshold deriver; `maxMeanGlobalFear` defaults
to 1.0 when unspecified. -/
structure RiskConstraints where
  maxHarmProbability : ℚ
  maxMeanGlobalFear : Option ℚ
deriving DecidableEq

/-- One derived threshold record. -/
structure ThresholdRecord where
  spatialFocusKey : String
  maxSafeSeedFraction : ℚ
  maxSafeSignalStrength : ℚ
  riskConstraints : RiskConstraints
deriving DecidableEq

/-- The result record of `deriveRegulatoryThresholds`. -/
structure DeriveResult where
  safe : Bool
  message : Option String
  thresholds : Option (List ThresholdRecord)
deriving DecidableEq

/-- The safe-cell filter of `deriveRegulatoryThresholds`. -/
def cellIsSafe (rc : RiskConstraints) (cell : SurfaceCell) : Bool :=
  decide (cell.stats.probabilityHarmful ≤ rc.maxHarmProbability) &&
  decide (cell.stats.meanGlobalPeakFear ≤ rc.maxMeanGlobalFear.getD 1)

/-- Sorting used by `spatialFocusKey`: the default JS array sort on strings. -/
def sortIds (ids : List String) : List String :=
  List.insertionSort (fun a b => strLe a b = true) ids

/-- JS `spatialFocusKey(spatialFocus)`: the canonical grouping key. -/
def spatialFocusKey (sf : Option SpatialFocus) : String :=
  match sf with
  | none => uniformTag
  | some s =>
    if s.type = kernelTag then
      kernelKeyHead ++ String.intercalate commaTag (sortIds (s.centerIds.getD []))
    else if s.type = explicitTag then explicitTag
    else if s.type = emptyTag then otherTag
    else s.type

/-- The effect of the in-place `centerIds.sort()` of `spatialFocusKey` on a
focus value: present center ids of a kernel focus end up sorted. -/
def sortFocusCenterIds (sf : Option SpatialFocus) : Option SpatialFocus :=
  match sf with
  | none => none
  | some s =>
    if s.type = kernelTag then
      match s.centerIds with
      | some ids => some { s with centerIds := some (sortIds ids) }
      | none => some s
    else some s

/-- The heap effect of computing the key of one cell. -/
def sortCellFocus (cell : SurfaceCell) : SurfaceCell :=
  { cell with spatialFocus := sortFocusCenterIds cell.spatialFocus }

/-- JS `maxBy(arr, fn)`: first strict maximum, `null` on an empty array. -/
def maxBy (f : SurfaceCell → ℚ) (arr : List SurfaceCell) : Option SurfaceCell :=
  arr.foldl (fun best x =>
    match best with
    | none => some x
    | some b => if f b < f x then some x else some b) none

/-- Insertion of one cell into the JS grouping object `byFocusKey` keyed by the
canonical focus key (insertion-ordered keys, appended group members). -/
def pushGroup (acc : List (String × List SurfaceCell)) (key : String)
    (cell : SurfaceCell) : List (String × List SurfaceCell) :=
  match acc with
  | [] => [(key, [cell])]
  | (k, cs) :: rest =>
    if k = key then (k, cs ++ [cell]) :: rest
    else (k, cs) :: pushGroup rest key cell

/-- The grouping loop of `deriveRegulatoryThresholds`. -/
def groupByFocusKey (cells : List SurfaceCell) : List (String × List SurfaceCell) :=
  cells.foldl (fun acc cell => pushGroup acc (spatialFocusKey cell.spatialFocus) cell) []

/-- One threshold record per key group. -/
def thresholdForGroup (rc : RiskConstraints) (key : String)
    (cells : List SurfaceCell) : ThresholdRecord :=
  { spatialFocusKey := key
    maxSafeSeedFraction :=
      ((maxBy (fun c => c.seedFraction) cells).map (fun c => c.seedFraction)).getD 0
    maxSafeSignalStrength :=
      ((maxBy (fun c => c.signalStrength) cells).map (fun c => c.signalStrength)).getD 0
    riskConstraints := rc }

/-- JS `deriveRegulatoryThresholds(surface, riskConstraints)`.  The second
component of the pair is the post-call contents of the input surface: key
computation sorts the center ids of each cell that reached the grouping loop
(the safe cells); when no cell is safe the function returns early and the
surface is untouched. -/
def deriveRegulatoryThresholds (surface : List SurfaceCell) (rc : RiskConstraints) :
    DeriveResult × List SurfaceCell :=
  let safeCells := surface.filter (cellIsSafe rc)
  if safeCells.isEmpty then
    ({ safe := false, message := some noSafeRegionMessage, thresholds := none }, surface)
  else
    let groups := groupByFocusKey safeCells
    let thresholds := groups.map (fun g => thresholdForGroup rc g.1 g.2)
    ({ safe := true, message := none, thresholds := some thresholds },
     surface.map (fun c => if cellIsSafe rc c then sortCellFocus c else c))

/-! ### Concrete scenarios used to exercise the embedding -/

/-- Region id of the one-region scenarios. -/
def rR : String := "R"

/-- Region id "A". -/
def idA : String := "A"

/-- Region id "B". -/
def idB : String := "B"

/-- A concrete stand-in for the host power primitive; it agrees with
`Math.pow` whenever the base is 1 (the scenarios use density 0). -/
def pow0 : ℚ → ℚ → ℚ := fun x _ => x

/-- An ambient random stream of constant 1/2 (jitter-free seeding). -/
def amb0 : Nat → ℚ := fun _ => 1 / 2

/-- An ambient random stream of constant 0. -/
def ambLo : Nat → ℚ := fun _ => 0

/-- An ambient random stream of constant 1. -/
def ambHi : Nat → ℚ := fun _ => 1

/-- One region `R` with constant density 0. -/
def dp0 : DensityProvider := ⟨[rR], fun _ _ => 0⟩

/-- The empty mobility graph. -/
def graph0 : MobilityGraph := []

/-- Fear parameters with every option absent (all defaults apply). -/
def fpNone : FearParams := ⟨none, none, none, none, none, none, none, none, none, none⟩

/-- Adoption parameters with every option absent. -/
def apNone : AdoptionParams := ⟨none, none, none, none, none, none, none⟩

/-- Adoption parameters with `fearSensitivity = 2`, all else default. -/
def apFear2 : AdoptionParams := ⟨none, some 2, none, none, none, none, none⟩

/-- Harm weights with every option absent. -/
def hwNone : HarmWeights := ⟨none, none, none⟩

/-- A seeded RNG factory whose streams are constant 1/2. -/
def rngHalf : Option (Nat → Nat → ℚ) := some (fun _ _ => 1 / 2)

/-- Config: population 1, initial fear 4/5, seeded RNG. -/
def cfgW1 : SimConfig := ⟨fpNone, apNone, [(rR, 1)], [(rR, 4 / 5)], rngHalf, hwNone⟩

/-- Config with a negative supplied initial fear. -/
def cfgNegFear : SimConfig := ⟨fpNone, apNone, [(rR, 1)], [(rR, -1)], rngHalf, hwNone⟩

/-- Config with negative initial fear and `fearSensitivity = 2`. -/
def cfgC9 : SimConfig := ⟨fpNone, apFear2, [(rR, 1)], [(rR, -1)], rngHalf, hwNone⟩

/-- Config without an RNG factory: the run falls back to `Math.random`. -/
def cfgNoRng : SimConfig := ⟨fpNone, apNone, [(rR, 1)], [(rR, 4 / 5)], none, hwNone⟩

/-- Theta with `timeHorizon = 0` (a single snapshot). -/
def thetaT0 : Theta := ⟨1 / 2, none, 1, 0, 1, some 0⟩

/-- Theta with `timeHorizon = 1`, `dt = 1` (two snapshots). -/
def thetaT1 : Theta := ⟨1 / 2, none, 1, 1, 1, some 0⟩

/-- Theta with `timeHorizon = 2`, `dt = 1` (three snapshots). -/
def thetaT2 : Theta := ⟨1 / 2, none, 1, 2, 1, some 0⟩

/-- Aggregated stats that satisfy mild risk constraints. -/
def statsLow : AggStats := ⟨0, 0, 0, []⟩

/-- Aggregated stats that violate mild risk constraints. -/
def statsHigh : AggStats := ⟨0, 2, 1, []⟩

/-- Risk constraints with `maxHarmProbability = 1/2`, no fear ceiling given. -/
def rcHalf : RiskConstraints := ⟨1 / 2, none⟩

/-- Kernel focus with centers `[A, B]`. -/
def focusAB : SpatialFocus := ⟨kernelTag, some [idA, idB], none⟩

/-- Kernel focus with centers `[B, A]`. -/
def focusBA : SpatialFocus := ⟨kernelTag, some [idB, idA], none⟩

/-- Kernel focus with centers `[A, A]`. -/
def focusAA : SpatialFocus := ⟨kernelTag, some [idA, idA], none⟩

/-- Kernel focus with centers `[A]`. -/
def focusA1 : SpatialFocus := ⟨kernelTag, some [idA], none⟩

/-- Explicit focus with weights `{A: 2, B: 2}`. -/
def sfExpl22 : SpatialFocus := ⟨explicitTag, none, some [(idA, 2), (idB, 2)]⟩

/-- Explicit focus whose weight map mentions a region (`B`) that is not in the
region list of the scenario that uses it. -/
def sfExplStray : SpatialFocus := ⟨explicitTag, none, some [(idA, 1), (idB, 1)]⟩

/-- A cell without spatial focus and safe stats. -/
def cellPlain : SurfaceCell := ⟨1 / 10, 1, none, statsLow⟩

/-- A safe kernel cell with centers `[A, B]`. -/
def cellKAB : SurfaceCell := ⟨1 / 10, 1, some focusAB, statsLow⟩

/-- A safe kernel cell with centers `[B, A]`. -/
def cellKBA : SurfaceCell := ⟨1 / 5, 2, some focusBA, statsLow⟩

/-- A safe kernel cell with centers `[A, A]`. -/
def cellKAA : SurfaceCell := ⟨1 / 10, 1, some focusAA, statsLow⟩

/-- A safe kernel cell with centers `[A]`. -/
def cellKA1 : SurfaceCell := ⟨1 / 5, 2, some focusA1, statsLow⟩

/-- A risk-violating kernel cell with unsorted centers `[B, A]`. -/
def cellKBAbad : SurfaceCell := ⟨1 / 10, 1, some focusBA, statsHigh⟩

/-- A one-point parameter grid. -/
def gridW : ParamGrid := ⟨[1 / 2], [1], [none]⟩

/-- Builder config with one run per point over the one-region scenario. -/
def scW : SurfaceConfig := ⟨dp0, graph0, ⟨cfgW1, 0, 1⟩, 1⟩

/-- Well-formedness of a simulation state: keys live in the region list,
adoption values are in `[0, 1]` and fear values are non-negative. -/
def stateWF (regions : List String) (s : SimState) : Prop :=
  (∀ p ∈ s.A, p.1 ∈ regions ∧ 0 ≤ p.2 ∧ p.2 ≤ 1) ∧
  (∀ p ∈ s.F, p.1 ∈ regions ∧ 0 ≤ p.2)

/-! ### Basic lemmas about the embedding primitives -/

/-- clamp01 never goes below 0. -/
lemma clamp01_nonneg (x : ℚ) : 0 ≤ clamp01 x := le_max_left 0 _

/-- clamp01 never exceeds 1. -/
lemma clamp01_le_one (x : ℚ) : clamp01 x ≤ 1 :=
  max_le (by norm_num) (min_le_left 1 x)

/-- clamp01 does not go below a lower bound that is at most 1 and at most the
clamped value. -/
lemma le_clamp01 {a x : ℚ} (h1 : a ≤ 1) (h2 : a ≤ x) : a ≤ clamp01 x :=
  le_trans (le_min h1 h2) (le_max_right 0 _)

/-- Any lookup is either the default 0 or the value of some entry. -/
lemma rmGet_cases (m : RegionMap) (x : String) :
    rmGet m x = 0 ∨ ∃ p ∈ m, p.1 = x ∧ rmGet m x = p.2 := by
  induction m with
  | nil => exact Or.inl rfl
  | cons q rest ih =>
    obtain ⟨k, v⟩ := q
    by_cases hx : x = k
    · subst hx
      exact Or.inr ⟨(x, v), List.mem_cons_self _ _, rfl, by simp [rmGet]⟩
    · rcases ih with h0 | ⟨p, hp, hk, hv⟩
      · exact Or.inl (by simp [rmGet, hx, h0])
      · exact Or.inr ⟨p, List.mem_cons_of_mem _ hp, hk, by simp [rmGet, hx, hv]⟩

/-- Lookups in a map with non-negative values are non-negative. -/
lemma rmGet_nonneg {m : RegionMap} (h : ∀ p ∈ m, 0 ≤ p.2) (x : String) :
    0 ≤ rmGet m x := by
  rcases rmGet_cases m x with h0 | ⟨p, hp, _, hv⟩
  · simp [h0]
  · exact hv ▸ h p hp

/-- Lookups in a map with values at most 1 are at most 1. -/
lemma rmGet_le_one {m : RegionMap} (h : ∀ p ∈ m, p.2 ≤ 1) (x : String) :
    rmGet m x ≤ 1 := by
  rcases rmGet_cases m x with h0 | ⟨p, hp, _, hv⟩
  · simp [h0]
  · exact hv ▸ h p hp

/-- Looking up a key that no entry carries returns 0. -/
lemma rmGet_eq_zero_of_keys {m : RegionMap} {regions : List String}
    (h : ∀ p ∈ m, p.1 ∈ regions) {x : String} (hx : x ∉ regions) :
    rmGet m x = 0 := by
  rcases rmGet_cases m x with h0 | ⟨p, hp, hk, hv⟩
  · exact h0
  · exact absurd (hk ▸ h p hp) hx

/-- Looking up a key absent from the entry keys returns 0. -/
lemma rmGet_not_key {m : RegionMap} {x : String} (h : x ∉ m.map Prod.fst) :
    rmGet m x = 0 := by
  induction m with
  | nil => rfl
  | cons q rest ih =>
    simp only [List.map_cons, List.mem_cons, not_or] at h
    obtain ⟨k, v⟩ := q
    simp only [rmGet, if_neg h.1]
    exact ih h.2

/-- Lookup in the canonical per-region map built by a `regions.map`. -/
lemma rmGet_map_self {regions : List String} (g : String → ℚ) {x : String}
    (hx : x ∈ regions) :
    rmGet (regions.map (fun r => (r, g r))) x = g x := by
  induction regions with
  | nil => cases hx
  | cons r rest ih =>
    by_cases hr : x = r
    · subst hr; simp [rmGet]
    · rcases List.mem_cons.mp hx with h | h
      · exact absurd h hr
      · simpa [rmGet, hr] using ih h

/-- Lookup outside the region list in a per-region map is 0. -/
lemma rmGet_map_self_notmem {regions : List String} (g : String → ℚ) {x : String}
    (hx : x ∉ regions) :
    rmGet (regions.map (fun r => (r, g r))) x = 0 := by
  refine rmGet_eq_zero_of_keys (fun p hp => ?_) hx
  obtain ⟨r, hr, rfl⟩ := List.mem_map.mp hp
  exact hr

/-! ### The order used to model the JS string sort -/

/-- Two chars with equal codepoints are equal. -/
lemma charEq_of_toNat {a b : Char} (h : a.toNat = b.toNat) : a = b :=
  Char.ext (UInt32.ext h)

/-- The char-list comparison is total. -/
lemma charListLe_total : ∀ as bs, charListLe as bs = true ∨ charListLe bs as = true := by
  intro as
  induction as with
  | nil => intro bs; exact Or.inl rfl
  | cons a as ih =>
    intro bs
    cases bs with
    | nil => exact Or.inr rfl
    | cons b bs =>
      by_cases hab : a.toNat < b.toNat
      · exact Or.inl (by simp [charListLe, hab])
      · by_cases hba : b.toNat < a.toNat
        · exact Or.inr (by simp [charListLe, hba])
        · rcases ih bs with h | h
          · exact Or.inl (by simp [charListLe, hab, hba, h])
          · exact Or.inr (by simp [charListLe, hab, hba, h])

/-- The char-list comparison is antisymmetric. -/
lemma charListLe_antisymm : ∀ as bs, charListLe as bs = true → charListLe bs as = true →
    as = bs := by
  intro as
  induction as with
  | nil =>
    intro bs h1 h2
    cases bs with
    | nil => rfl
    | cons b bs => cases h2
  | cons a as ih =>
    intro bs h1 h2
    cases bs with
    | nil => cases h1
    | cons b bs =>
      by_cases hab : a.toNat < b.toNat
      · simp only [charListLe, if_neg (by omega : ¬b.toNat < a.toNat), if_pos hab] at h2
        cases h2
      · by_cases hba : b.toNat < a.toNat
        · simp only [charListLe, if_neg hab, if_pos hba] at h1
          cases h1
        · have hv : a = b := charEq_of_toNat (by omega)
          subst hv
          simp only [charListLe, if_neg hab] at h1 h2
          rw [ih bs h1 h2]

/-- The char-list comparison is transitive. -/
lemma charListLe_trans : ∀ as bs cs, charListLe as bs = true → charListLe bs cs = true →
    charListLe as cs = true := by
  intro as
  induction as with
  | nil => intro bs cs h1 h2; rfl
  | cons a as ih =>
    intro bs cs h1 h2
    cases bs with
    | nil => cases h1
    | cons b bs =>
      cases cs with
      | nil => cases h2
      | cons c cs =>
        by_cases hac : a.toNat < c.toNat
        · simp [charListLe, hac]
        · by_cases hab : a.toNat < b.toNat
          · by_cases hbc : b.toNat < c.toNat
            · exact absurd (Nat.lt_trans hab hbc) hac
            · by_cases hcb : c.toNat < b.toNat
              · simp only [charListLe, if_neg hbc, if_pos hcb] at h2
                cases h2
              · have hv : b = c := charEq_of_toNat (by omega)
                subst hv
                exact absurd hab hac
          · by_cases hba : b.toNat < a.toNat
            · simp only [charListLe, if_neg hab, if_pos hba] at h1
              cases h1
            · have hv : a = b := charEq_of_toNat (by omega)
              subst hv
              by_cases hcb : c.toNat < a.toNat
              · simp only [charListLe, if_neg (by omega : ¬a.toNat < c.toNat), if_pos hcb] at h2
                cases h2
              · have hv2 : a = c := charEq_of_toNat (by omega)
                subst hv2
                simp only [charListLe, if_neg hac] at h1 h2 ⊢
                exact ih bs cs h1 h2

/-- Strings with equal char lists are equal. -/
lemma strData_inj : ∀ {a b : String}, a.data = b.data → a = b := by
  intro a b h
  cases a; cases b; exact congrArg String.mk h

instance : IsTotal String (fun a b => strLe a b = true) :=
  ⟨fun a b => charListLe_total a.data b.data⟩

instance : IsTrans String (fun a b => strLe a b = true) :=
  ⟨fun a b c => charListLe_trans a.data b.data c.data⟩

instance : IsAntisymm String (fun a b => strLe a b = true) :=
  ⟨fun a b h1 h2 => strData_inj (charListLe_antisymm a.data b.data h1 h2)⟩

/-- Sorting two permuted id lists with the canonicalizing sort gives the same
result. -/
lemma sortIds_perm_eq {l1 l2 : List String} (h : l1.Perm l2) :
    sortIds l1 = sortIds l2 :=
  List.eq_of_perm_of_sorted
    (((List.perm_insertionSort _ l1).trans h).trans (List.perm_insertionSort _ l2).symm)
    (List.sorted_insertionSort _ l1) (List.sorted_insertionSort _ l2)

/-! ### Trace lemmas -/

/-- A trace of `n` updates holds `n + 1` states. -/
lemma simTrace_length (f : SimState → SimState) : ∀ n s, (simTrace f n s).length = n + 1 := by
  intro n
  induction n with
  | zero => intro s; rfl
  | succ m ih => intro s; simp [simTrace, ih]

/-- The state at index `k` of a trace is the `k`-fold update of the start state. -/
lemma simTrace_getElem? (f : SimState → SimState) :
    ∀ n k s, k ≤ n → (simTrace f n s)[k]? = some (f^[k] s) := by
  intro n
  induction n with
  | zero =>
    intro k s hk
    interval_cases k
    rfl
  | succ m ih =>
    intro k s hk
    cases k with
    | zero => simp [simTrace]
    | succ j =>
      have hj : j ≤ m := Nat.succ_le_succ_iff.mp hk
      simp only [simTrace, List.getElem?_cons_succ, ih j (f s) hj,
        Function.iterate_succ_apply]

/-- Every state of a trace is an iterate of the start state. -/
lemma mem_simTrace {f : SimState → SimState} :
    ∀ {n s s2}, s2 ∈ simTrace f n s → ∃ k, k ≤ n ∧ s2 = f^[k] s := by
  intro n
  induction n with
  | zero =>
    intro s s2 h
    rcases List.mem_singleton.mp h with rfl
    exact ⟨0, le_refl 0, rfl⟩
  | succ m ih =>
    intro s s2 h
    rcases List.mem_cons.mp h with rfl | h
    · exact ⟨0, Nat.zero_le _, rfl⟩
    · obtain ⟨k, hk, rfl⟩ := ih h
      exact ⟨k + 1, Nat.succ_le_succ hk, (Function.iterate_succ_apply f k s).symm⟩

/-- The `A` history of a run, described snapshot by snapshot. -/
lemma run_histA_getElem? (jsPow : ℚ → ℚ → ℚ) (ambient : Nat → ℚ) (theta : Theta)
    (dp : DensityProvider) (graph : MobilityGraph) (cfg : SimConfig)
    (hT : ¬ Int.floor (theta.timeHorizon / theta.dt) < 0) (k : Nat)
    (hk : k ≤ (Int.floor (theta.timeHorizon / theta.dt)).toNat) :
    (runCascadeSimulation jsPow ambient theta dp graph cfg).history.A[k]? =
      some (Snapshot.mk ((k : ℚ) * theta.dt)
        ((simStep jsPow dp graph theta.signalStrength cfg)^[k]
          (simInit ambient theta dp cfg)).A) := by
  show ((if Int.floor (theta.timeHorizon / theta.dt) < 0 then []
      else simTrace (simStep jsPow dp graph theta.signalStrength cfg)
        (Int.floor (theta.timeHorizon / theta.dt)).toNat
        (simInit ambient theta dp cfg)).enum.map
      (fun p => Snapshot.mk ((p.1 : ℚ) * theta.dt) p.2.A))[k]? = _
  rw [if_neg hT, List.getElem?_map, List.getElem?_enum, simTrace_getElem? _ _ _ _ hk]
  rfl

/-- The `F` history of a run, described snapshot by snapshot. -/
lemma run_histF_getElem? (jsPow : ℚ → ℚ → ℚ) (ambient : Nat → ℚ) (theta : Theta)
    (dp : DensityProvider) (graph : MobilityGraph) (cfg : SimConfig)
    (hT : ¬ Int.floor (theta.timeHorizon / theta.dt) < 0) (k : Nat)
    (hk : k ≤ (Int.floor (theta.timeHorizon / theta.dt)).toNat) :
    (runCascadeSimulation jsPow ambient theta dp graph cfg).history.F[k]? =
      some (Snapshot.mk ((k : ℚ) * theta.dt)
        ((simStep jsPow dp graph theta.signalStrength cfg)^[k]
          (simInit ambient theta dp cfg)).F) := by
  show ((if Int.floor (theta.timeHorizon / theta.dt) < 0 then []
      else simTrace (simStep jsPow dp graph theta.signalStrength cfg)
        (Int.floor (theta.timeHorizon / theta.dt)).toNat
        (simInit ambient theta dp cfg)).enum.map
      (fun p => Snapshot.mk ((p.1 : ℚ) * theta.dt) p.2.F))[k]? = _
  rw [if_neg hT, List.getElem?_map, List.getElem?_enum, simTrace_getElem? _ _ _ _ hk]
  rfl

/-- Length of the `A` history of a run with a non-negative step count. -/
lemma run_histA_length (jsPow : ℚ → ℚ → ℚ) (ambient : Nat → ℚ) (theta : Theta)
    (dp : DensityProvider) (graph : MobilityGraph) (cfg : SimConfig)
    (hT : ¬ Int.floor (theta.timeHorizon / theta.dt) < 0) :
    (runCascadeSimulation jsPow ambient theta dp graph cfg).history.A.length =
      (Int.floor (theta.timeHorizon / theta.dt)).toNat + 1 := by
  show ((if Int.floor (theta.timeHorizon / theta.dt) < 0 then []
      else simTrace (simStep jsPow dp graph theta.signalStrength cfg)
        (Int.floor (theta.timeHorizon / theta.dt)).toNat
        (simInit ambient theta dp cfg)).enum.map
      (fun p => Snapshot.mk ((p.1 : ℚ) * theta.dt) p.2.A)).length = _
  rw [if_neg hT, List.length_map, List.enum_length, simTrace_length]

/-- Length of the `F` history of a run with a non-negative step count. -/
lemma run_histF_length (jsPow : ℚ → ℚ → ℚ) (ambient : Nat → ℚ) (theta : Theta)
    (dp : DensityProvider) (graph : MobilityGraph) (cfg : SimConfig)
    (hT : ¬ Int.floor (theta.timeHorizon / theta.dt) < 0) :
    (runCascadeSimulation jsPow ambient theta dp graph cfg).history.F.length =
      (Int.floor (theta.timeHorizon / theta.dt)).toNat + 1 := by
  show ((if Int.floor (theta.timeHorizon / theta.dt) < 0 then []
      else simTrace (simStep jsPow dp graph theta.signalStrength cfg)
        (Int.floor (theta.timeHorizon / theta.dt)).toNat
        (simInit ambient theta dp cfg)).enum.map
      (fun p => Snapshot.mk ((p.1 : ℚ) * theta.dt) p.2.F)).length = _
  rw [if_neg hT, List.length_map, List.enum_length, simTrace_length]

/-- The values of every `A` snapshot of a run are the `A` map of some state
reachable from the initial state. -/
lemma run_histA_values (jsPow : ℚ → ℚ → ℚ) (ambient : Nat → ℚ) (theta : Theta)
    (dp : DensityProvider) (graph : MobilityGraph) (cfg : SimConfig) {snap : Snapshot}
    (h : snap ∈ (runCascadeSimulation jsPow ambient theta dp graph cfg).history.A) :
    ∃ k, snap.values =
      ((simStep jsPow dp graph theta.signalStrength cfg)^[k]
        (simInit ambient theta dp cfg)).A := by
  have h2 : snap ∈ (if Int.floor (theta.timeHorizon / theta.dt) < 0 then []
      else simTrace (simStep jsPow dp graph theta.signalStrength cfg)
        (Int.floor (theta.timeHorizon / theta.dt)).toNat
        (simInit ambient theta dp cfg)).enum.map
      (fun p => Snapshot.mk ((p.1 : ℚ) * theta.dt) p.2.A) := h
  obtain ⟨p, hp, rfl⟩ := List.mem_map.mp h2
  have hs : p.2 ∈ (if Int.floor (theta.timeHorizon / theta.dt) < 0 then []
      else simTrace (simStep jsPow dp graph theta.signalStrength cfg)
        (Int.floor (theta.timeHorizon / theta.dt)).toNat
        (simInit ambient theta dp cfg)) := by
    have := List.mem_map_of_mem Prod.snd hp
    rwa [List.enum_map_snd] at this
  by_cases hT : Int.floor (theta.timeHorizon / theta.dt) < 0
  · rw [if_pos hT] at hs
    cases hs
  · rw [if_neg hT] at hs
    obtain ⟨k, _, hk⟩ := mem_simTrace hs
    exact ⟨k, by rw [hk]⟩

/-- The values of every `F` snapshot of a run are the `F` map of some state
reachable from the initial state. -/
lemma run_histF_values (jsPow : ℚ → ℚ → ℚ) (ambient : Nat → ℚ) (theta : Theta)
    (dp : DensityProvider) (graph : MobilityGraph) (cfg : SimConfig) {snap : Snapshot}
    (h : snap ∈ (runCascadeSimulation jsPow ambient theta dp graph cfg).history.F) :
    ∃ k, snap.values =
      ((simStep jsPow dp graph theta.signalStrength cfg)^[k]
        (simInit ambient theta dp cfg)).F := by
  have h2 : snap ∈ (if Int.floor (theta.timeHorizon / theta.dt) < 0 then []
      else simTrace (simStep jsPow dp graph theta.signalStrength cfg)
        (Int.floor (theta.timeHorizon / theta.dt)).toNat
        (simInit ambient theta dp cfg)).enum.map
      (fun p => Snapshot.mk ((p.1 : ℚ) * theta.dt) p.2.F) := h
  obtain ⟨p, hp, rfl⟩ := List.mem_map.mp h2
  have hs : p.2 ∈ (if Int.floor (theta.timeHorizon / theta.dt) < 0 then []
      else simTrace (simStep jsPow dp graph theta.signalStrength cfg)
        (Int.floor (theta.timeHorizon / theta.dt)).toNat
        (simInit ambient theta dp cfg)) := by
    have := List.mem_map_of_mem Prod.snd hp
    rwa [List.enum_map_snd] at this
  by_cases hT : Int.floor (theta.timeHorizon / theta.dt) < 0
  · rw [if_pos hT] at hs
    cases hs
  · rw [if_neg hT] at hs
    obtain ⟨k, _, hk⟩ := mem_simTrace hs
    exact ⟨k, by rw [hk]⟩

/-! ### State invariants of a run -/

/-- Entries of the seeded adoption map: keys from the region list and values in
`[0, 1]` by the final clamp. -/
lemma setupAdoption_entries (regions : List String) (seedFraction : ℚ)
    (spatialFocus : Option SpatialFocus) (popByRegion : RegionMap) (rng : Nat → ℚ) :
    ∀ p ∈ setupAdoption regions seedFraction spatialFocus popByRegion rng,
      p.1 ∈ regions ∧ 0 ≤ p.2 ∧ p.2 ≤ 1 := by
  intro p hp
  simp only [setupAdoption] at hp
  obtain ⟨q, hq, rfl⟩ := List.mem_map.mp hp
  refine ⟨?_, clamp01_nonneg _, clamp01_le_one _⟩
  have := List.mem_map_of_mem Prod.snd hq
  rwa [List.enum_map_snd] at this

/-- Entries of the initial fear map: keys from the region list; values are
non-negative whenever the supplied initial fears are. -/
lemma setupFear_entries (regions : List String) (initialFearByRegion : RegionMap)
    (hF0 : ∀ p ∈ initialFearByRegion, 0 ≤ p.2) :
    ∀ p ∈ setupFear regions initialFearByRegion, p.1 ∈ regions ∧ 0 ≤ p.2 := by
  intro p hp
  simp only [setupFear] at hp
  obtain ⟨r, hr, rfl⟩ := List.mem_map.mp hp
  exact ⟨hr, rmGet_nonneg hF0 r⟩

/-- A committed update always produces a well-formed state. -/
lemma simStep_WF (jsPow : ℚ → ℚ → ℚ) (dp : DensityProvider) (graph : MobilityGraph)
    (signalStrength : ℚ) (cfg : SimConfig) (s : SimState) :
    stateWF dp.listRegions (simStep jsPow dp graph signalStrength cfg s) := by
  constructor
  · intro p hp
    simp only [simStep] at hp
    obtain ⟨r, hr, rfl⟩ := List.mem_map.mp hp
    exact ⟨hr, clamp01_nonneg _, clamp01_le_one _⟩
  · intro p hp
    simp only [simStep] at hp
    obtain ⟨r, hr, rfl⟩ := List.mem_map.mp hp
    exact ⟨hr, le_max_left 0 _⟩

/-- The initial state is well-formed when the supplied initial fears are
non-negative. -/
lemma simInit_WF (ambient : Nat → ℚ) (theta : Theta) (dp : DensityProvider)
    (cfg : SimConfig) (hF0 : ∀ p ∈ cfg.initialFearByRegion, 0 ≤ p.2) :
    stateWF dp.listRegions (simInit ambient theta dp cfg) := by
  constructor
  · intro p hp
    exact setupAdoption_entries _ _ _ _ _ p hp
  · intro p hp
    exact setupFear_entries _ _ hF0 p hp

/-- Every iterate of the update from the initial state is well-formed. -/
lemma iterate_WF (jsPow : ℚ → ℚ → ℚ) (ambient : Nat → ℚ) (theta : Theta)
    (dp : DensityProvider) (graph : MobilityGraph) (cfg : SimConfig)
    (hF0 : ∀ p ∈ cfg.initialFearByRegion, 0 ≤ p.2) (k : Nat) :
    stateWF dp.listRegions
      ((simStep jsPow dp graph theta.signalStrength cfg)^[k]
        (simInit ambient theta dp cfg)) := by
  induction k with
  | zero => exact simInit_WF ambient theta dp cfg hF0
  | succ m ih =>
    rw [Function.iterate_succ_apply']
    exact simStep_WF _ _ _ _ _ _

/-! ### Monotonicity support -/

/-- Weights of reversed edges come from the mobility graph. -/
lemma reverseEdges_weight {target : String} {graph : MobilityGraph} {q : String × ℚ}
    (hq : q ∈ reverseEdgesForRegion target graph) :
    ∃ p ∈ graph, ∃ e ∈ p.2, q.2 = e.weight := by
  simp only [reverseEdgesForRegion] at hq
  obtain ⟨p, hp, hq2⟩ := List.mem_flatMap.mp hq
  obtain ⟨e, he, rfl⟩ := List.mem_map.mp hq2
  exact ⟨p, hp, e, (List.mem_filter.mp he).1, rfl⟩

/-- The exposure values are non-negative under the non-negativity conditions on
the signal, densities, weights, contact parameters and the power primitive. -/
lemma computeExposure_nonneg (jsPow : ℚ → ℚ → ℚ) (regions : List String)
    (A : RegionMap) (dp : DensityProvider) (graph : MobilityGraph)
    (signalStrength : ℚ) (ap : AdoptionParams)
    (hpow : ∀ x y, 0 ≤ x → 0 ≤ jsPow x y)
    (hsig : 0 ≤ signalStrength)
    (hmob : ∀ p ∈ graph, ∀ e ∈ p.2, 0 ≤ e.weight)
    (hden : ∀ r, 0 ≤ dp.getDensity r 0)
    (hLW : 0 ≤ ap.localWeight.getD 1)
    (hIW : 0 ≤ ap.importedWeight.getD 1)
    (hBC : 0 ≤ ap.baseContact.getD (1 / 100))
    (hA : ∀ p ∈ A, 0 ≤ p.2) (x : String) :
    0 ≤ rmGet (computeExposure jsPow regions A dp graph signalStrength ap) x := by
  rcases rmGet_cases (computeExposure jsPow regions A dp graph signalStrength ap) x
    with h0 | ⟨p, hp, _, hv⟩
  · simp [h0]
  · rw [hv]
    simp only [computeExposure] at hp
    obtain ⟨i, _, rfl⟩ := List.mem_map.mp hp
    refine mul_nonneg hsig (add_nonneg ?_ (mul_nonneg hIW ?_))
    · refine mul_nonneg (mul_nonneg hLW ?_) (rmGet_nonneg hA i)
      exact mul_nonneg hBC (hpow _ _ (by have := hden i; linarith))
    · refine List.sum_nonneg ?_
      intro v hv2
      obtain ⟨e, he, rfl⟩ := List.mem_map.mp hv2
      obtain ⟨pg, hpg, eg, heg, hw⟩ := reverseEdges_weight he
      exact mul_nonneg (hw ▸ hmob pg hpg eg heg) (rmGet_nonneg hA e.1)

/-- The adoption increment is non-negative at a well-formed state point. -/
lemma adoptionIncrement_nonneg {a f e : ℚ} (ap : AdoptionParams)
    (ha0 : 0 ≤ a) (ha1 : a ≤ 1) (hf : 0 ≤ f) (he : 0 ≤ e)
    (hES : 0 ≤ ap.exposureScale.getD 1)
    (hFS : 0 ≤ ap.fearSensitivity.getD 1)
    (hMR : 0 ≤ ap.maxRate.getD (1 / 5)) :
    0 ≤ adoptionIncrement a f e ap := by
  simp only [adoptionIncrement]
  refine le_min hMR ?_
  have hden : (0:ℚ) < 1 + ap.fearSensitivity.getD 1 * f := by
    have := mul_nonneg hFS hf
    linarith
  refine mul_nonneg (mul_nonneg (mul_nonneg he hES) ?_) (by linarith)
  exact le_of_lt (by positivity)

/-- One committed update never decreases any adoption value, given a
well-formed state and the non-negativity conditions. -/
lemma simStep_A_mono (jsPow : ℚ → ℚ → ℚ) (dp : DensityProvider)
    (graph : MobilityGraph) (signalStrength : ℚ) (cfg : SimConfig) (s : SimState)
    (hWF : stateWF dp.listRegions s)
    (hpow : ∀ x y, 0 ≤ x → 0 ≤ jsPow x y)
    (hsig : 0 ≤ signalStrength)
    (hmob : ∀ p ∈ graph, ∀ e ∈ p.2, 0 ≤ e.weight)
    (hden : ∀ r, 0 ≤ dp.getDensity r 0)
    (hES : 0 ≤ cfg.adoptionParams.exposureScale.getD 1)
    (hFS : 0 ≤ cfg.adoptionParams.fearSensitivity.getD 1)
    (hMR : 0 ≤ cfg.adoptionParams.maxRate.getD (1 / 5))
    (hLW : 0 ≤ cfg.adoptionParams.localWeight.getD 1)
    (hIW : 0 ≤ cfg.adoptionParams.importedWeight.getD 1)
    (hBC : 0 ≤ cfg.adoptionParams.baseContact.getD (1 / 100)) (x : String) :
    rmGet s.A x ≤ rmGet (simStep jsPow dp graph signalStrength cfg s).A x := by
  have hA0 : ∀ p ∈ s.A, 0 ≤ p.2 := fun p hp => (hWF.1 p hp).2.1
  by_cases hx : x ∈ dp.listRegions
  · have hstep : rmGet (simStep jsPow dp graph signalStrength cfg s).A x =
        clamp01 (rmGet s.A x
          + adoptionIncrement (rmGet s.A x) (rmGet s.F x)
            (rmGet (computeExposure jsPow dp.listRegions s.A dp graph signalStrength
              cfg.adoptionParams) x) cfg.adoptionParams) := by
      simp only [simStep]
      exact rmGet_map_self _ hx
    rw [hstep]
    have ha0 : 0 ≤ rmGet s.A x := rmGet_nonneg hA0 x
    have ha1 : rmGet s.A x ≤ 1 := rmGet_le_one (fun p hp => (hWF.1 p hp).2.2) x
    have hf : 0 ≤ rmGet s.F x := rmGet_nonneg (fun p hp => (hWF.2 p hp).2) x
    have he : 0 ≤ rmGet (computeExposure jsPow dp.listRegions s.A dp graph
        signalStrength cfg.adoptionParams) x :=
      computeExposure_nonneg _ _ _ _ _ _ _ hpow hsig hmob hden hLW hIW hBC hA0 x
    have hinc := adoptionIncrement_nonneg cfg.adoptionParams ha0 ha1 hf he hES hFS hMR
    exact le_clamp01 ha1 (by linarith)
  · have h1 : rmGet s.A x = 0 :=
      rmGet_eq_zero_of_keys (fun p hp => (hWF.1 p hp).1) hx
    have h2 : rmGet (simStep jsPow dp graph signalStrength cfg s).A x = 0 := by
      simp only [simStep]
      exact rmGet_map_self_notmem _ hx
    rw [h1, h2]

/-! ### Scan and fold lemmas -/

/-- The short-circuiting harmful-cascade scan agrees with `List.any`. -/
lemma harmfulScan_eq_any (regions : List String) (popByRegion : RegionMap)
    (popTotal materialAdoption criticalFear criticalPopShare : ℚ) :
    ∀ pairs : List (Snapshot × Snapshot),
      harmfulScan regions popByRegion popTotal materialAdoption criticalFear
        criticalPopShare pairs =
      pairs.any (fun pair => decide (criticalPopShare ≤
        snapshotPopAtRisk regions popByRegion materialAdoption criticalFear
          pair.1.values pair.2.values / popTotal)) := by
  intro pairs
  induction pairs with
  | nil => rfl
  | cons pair rest ih =>
    by_cases h : criticalPopShare ≤
        snapshotPopAtRisk regions popByRegion materialAdoption criticalFear
          pair.1.values pair.2.values / popTotal
    · simp [harmfulScan, h]
    · simp [harmfulScan, h, ih]

/-- A left fold that appends a block per element is the flat map of the blocks. -/
lemma foldl_append_blocks {α β : Type} (step : List β → α → List β) (g : α → List β)
    (hstep : ∀ acc x, step acc x = acc ++ g x) :
    ∀ (l : List α) (init : List β), l.foldl step init = init ++ l.flatMap g := by
  intro l
  induction l with
  | nil => intro init; simp
  | cons x xs ih =>
    intro init
    simp only [List.foldl_cons, List.flatMap_cons, hstep, ih, List.append_assoc]

/-- Flat-mapping singletons is mapping. -/
lemma flatMap_singleton_map {α β : Type} (f : α → β) (l : List α) :
    l.flatMap (fun x => [f x]) = l.map f := by
  induction l with
  | nil => rfl
  | cons x xs ih => simp [ih]

/-- Summing a constant over a list. -/
lemma sum_map_const_nat {α : Type} (l : List α) (c : Nat) :
    (l.map (fun _ => c)).sum = l.length * c := by
  induction l with
  | nil => simp
  | cons x xs ih => simp [ih, Nat.succ_mul, Nat.add_comm]

/-! ### Explicit-weight normalization support -/

/-- Summing an if-update of a key occurring once in a duplicate-free list. -/
lemma sum_map_ite {k : String} {v : ℚ} (g : String → ℚ) :
    ∀ (regions : List String), regions.Nodup → k ∈ regions →
      (regions.map (fun r => if r = k then v else g r)).sum
        = v + (regions.map g).sum - g k := by
  intro regions
  induction regions with
  | nil => intro _ hk; cases hk
  | cons r rest ih =>
    intro hnd hk
    rcases List.mem_cons.mp hk with heq | hk2
    · subst heq
      have hrest : ∀ x ∈ rest, (if x = k then v else g x) = g x := by
        intro x hx
        have hxk : x ≠ k := fun h2 => (List.nodup_cons.mp hnd).1 (h2 ▸ hx)
        simp [hxk]
      simp only [List.map_cons, List.sum_cons, List.map_congr_left hrest]
      rw [if_pos trivial]
      ring
    · have hrk : r ≠ k := fun h => (List.nodup_cons.mp hnd).1 (h ▸ hk2)
      simp only [List.map_cons, List.sum_cons, if_neg hrk,
        ih (List.nodup_cons.mp hnd).2 hk2]
      ring

/-- Summing the region lookups of a weight map whose keys all occur in a
duplicate-free region list recovers the sum of the map values. -/
lemma sum_rmGet_eq_sum_values :
    ∀ (wmap : RegionMap) (regions : List String), regions.Nodup →
      (∀ p ∈ wmap, p.1 ∈ regions) → (wmap.map Prod.fst).Nodup →
      (regions.map (fun r => rmGet wmap r)).sum = (wmap.map Prod.snd).sum := by
  intro wmap
  induction wmap with
  | nil =>
    intro regions _ _ _
    simp [rmGet]
  | cons q rest ih =>
    intro regions hnd hkeys hknd
    obtain ⟨k, v⟩ := q
    have hk : k ∈ regions := hkeys (k, v) (List.mem_cons_self _ _)
    have hrw : (regions.map (fun r => rmGet ((k, v) :: rest) r)) =
        regions.map (fun r => if r = k then v else rmGet rest r) := by
      refine List.map_congr_left (fun r _ => ?_)
      rfl
    have hknd2 : (rest.map Prod.fst).Nodup := (List.nodup_cons.mp hknd).2
    have hkmem : k ∉ rest.map Prod.fst := (List.nodup_cons.mp hknd).1
    have hrestkeys : ∀ p ∈ rest, p.1 ∈ regions :=
      fun p hp => hkeys p (List.mem_cons_of_mem _ hp)
    rw [hrw, sum_map_ite _ regions hnd hk, ih regions hnd hrestkeys hknd2,
      rmGet_not_key hkmem]
    simp

/-! ### Grouping lemmas -/

/-- Keys after inserting one cell: unchanged when the key is present, appended
otherwise. -/
lemma pushGroup_keys (key : String) (cell : SurfaceCell) :
    ∀ acc : List (String × List SurfaceCell),
      (pushGroup acc key cell).map Prod.fst =
        if key ∈ acc.map Prod.fst then acc.map Prod.fst
        else acc.map Prod.fst ++ [key] := by
  intro acc
  induction acc with
  | nil => simp [pushGroup]
  | cons q rest ih =>
    obtain ⟨k0, cs⟩ := q
    by_cases hk : k0 = key
    · subst hk
      simp [pushGroup]
    · have hne : ¬ key = k0 := fun h => hk h.symm
      by_cases hmem : key ∈ rest.map Prod.fst
      · simp [pushGroup, hk, ih, hmem, hne]
      · simp [pushGroup, hk, ih, hmem, hne]

/-- The grouping fold keeps its key list duplicate-free. -/
lemma foldGroups_keys_nodup :
    ∀ (cells : List SurfaceCell) (acc : List (String × List SurfaceCell)),
      (acc.map Prod.fst).Nodup →
      (((cells.foldl (fun a cell => pushGroup a (spatialFocusKey cell.spatialFocus) cell)
        acc).map Prod.fst)).Nodup := by
  intro cells
  induction cells with
  | nil => intro acc h; exact h
  | cons c cs ih =>
    intro acc h
    simp only [List.foldl_cons]
    refine ih _ ?_
    rw [pushGroup_keys]
    by_cases hmem : spatialFocusKey c.spatialFocus ∈ acc.map Prod.fst
    · rw [if_pos hmem]; exact h
    · rw [if_neg hmem]
      refine List.nodup_append.mpr ⟨h, List.nodup_singleton _, ?_⟩
      intro a ha hb
      rcases List.mem_singleton.mp hb with rfl
      exact hmem ha

/-- The keys after the grouping fold are the starting keys plus the canonical
keys of the processed cells. -/
lemma foldGroups_keys_mem :
    ∀ (cells : List SurfaceCell) (acc : List (String × List SurfaceCell)) (x : String),
      (x ∈ ((cells.foldl (fun a cell => pushGroup a (spatialFocusKey cell.spatialFocus) cell)
          acc).map Prod.fst)) ↔
        x ∈ acc.map Prod.fst ∨ x ∈ cells.map (fun c => spatialFocusKey c.spatialFocus) := by
  intro cells
  induction cells with
  | nil => intro acc x; simp
  | cons c cs ih =>
    intro acc x
    simp only [List.foldl_cons, List.map_cons, List.mem_cons]
    rw [ih]
    rw [pushGroup_keys]
    by_cases hmem : spatialFocusKey c.spatialFocus ∈ acc.map Prod.fst
    · rw [if_pos hmem]
      constructor
      · rintro (h | h)
        · exact Or.inl h
        · exact Or.inr (Or.inr h)
      · rintro (h | h | h)
        · exact Or.inl h
        · exact Or.inl (h ▸ hmem)
        · exact Or.inr h
    · rw [if_neg hmem]
      constructor
      · rintro (h | h)
        · rcases List.mem_append.mp h with h2 | h2
          · exact Or.inl h2
          · exact Or.inr (Or.inl (List.mem_singleton.mp h2))
        · exact Or.inr (Or.inr h)
      · rintro (h | h | h)
        · exact Or.inl (List.mem_append.mpr (Or.inl h))
        · exact Or.inl (List.mem_append.mpr (Or.inr (List.mem_singleton.mpr h)))
        · exact Or.inr h

/-- The grouping object of the deriver: duplicate-free keys. -/
lemma groupByFocusKey_keys_nodup (cells : List SurfaceCell) :
    ((groupByFocusKey cells).map Prod.fst).Nodup :=
  foldGroups_keys_nodup cells [] (by simp)

/-- The grouping object of the deriver: its keys are exactly the canonical keys
of the grouped cells. -/
lemma groupByFocusKey_keys_mem (cells : List SurfaceCell) (x : String) :
    x ∈ (groupByFocusKey cells).map Prod.fst ↔
      x ∈ cells.map (fun c => spatialFocusKey c.spatialFocus) := by
  rw [groupByFocusKey, foldGroups_keys_mem]
  simp

/-- The safety filter read back as the pair of threshold comparisons. -/
lemma cellIsSafe_iff (rc : RiskConstraints) (cell : SurfaceCell) :
    cellIsSafe rc cell = true ↔
      (cell.stats.probabilityHarmful ≤ rc.maxHarmProbability ∧
       cell.stats.meanGlobalPeakFear ≤ rc.maxMeanGlobalFear.getD 1) := by
  simp [cellIsSafe]

/-! ### Claim theorems -/

/-- C1 (amended): in every run whose supplied initial fear values are
non-negative, every history snapshot has every adoption value in `[0, 1]` and
every fear value non-negative.  (Adoption needs no hypothesis; the initial
snapshot copies `initialFearByRegion` without flooring, so the fear part needs
the non-negativity of the supplied initial fears.) -/
theorem run_bounds (jsPow : ℚ → ℚ → ℚ) (ambient : Nat → ℚ) (theta : Theta)
    (dp : DensityProvider) (graph : MobilityGraph) (cfg : SimConfig)
    (hF0 : ∀ p ∈ cfg.initialFearByRegion, 0 ≤ p.2) :
    (∀ snap ∈ (runCascadeSimulation jsPow ambient theta dp graph cfg).history.A,
      ∀ r, 0 ≤ rmGet snap.values r ∧ rmGet snap.values r ≤ 1)
    ∧ (∀ snap ∈ (runCascadeSimulation jsPow ambient theta dp graph cfg).history.F,
      ∀ r, 0 ≤ rmGet snap.values r) := by
  constructor
  · intro snap hs r
    obtain ⟨k, hk⟩ := run_histA_values jsPow ambient theta dp graph cfg hs
    have hWF := iterate_WF jsPow ambient theta dp graph cfg hF0 k
    rw [hk]
    exact ⟨rmGet_nonneg (fun p hp => (hWF.1 p hp).2.1) r,
      rmGet_le_one (fun p hp => (hWF.1 p hp).2.2) r⟩
  · intro snap hs r
    obtain ⟨k, hk⟩ := run_histF_values jsPow ambient theta dp graph cfg hs
    have hWF := iterate_WF jsPow ambient theta dp graph cfg hF0 k
    rw [hk]
    exact rmGet_nonneg (fun p hp => (hWF.2 p hp).2) r

/-- C1 witness: the bound theorem applied to a concrete run. -/
theorem run_bounds_witness : 0 ≤ rmGet [(rR, 4 / 5)] rR := by
  have hmem : Snapshot.mk 0 [(rR, 4 / 5)] ∈
      (runCascadeSimulation pow0 amb0 thetaT0 dp0 graph0 cfgW1).history.F := by
    norm_num [runCascadeSimulation, simTrace, simInit, setupAdoption, setupFear,
      computeSpatialFocusWeights, rmGet, clamp01, List.enum, List.enumFrom,
      pow0, amb0, dp0, graph0, rR, fpNone, apNone, hwNone, rngHalf, thetaT0, cfgW1]
  exact (run_bounds pow0 amb0 thetaT0 dp0 graph0 cfgW1
    (fun p hp => by rcases List.mem_singleton.mp hp with rfl; norm_num)).2
    _ hmem rR

/-- C1 counterexample: with a negative supplied initial fear, the initial
snapshot carries a negative fear value, refuting the claim as stated. -/
theorem run_negative_initial_fear :
    ((runCascadeSimulation pow0 amb0 thetaT0 dp0 graph0 cfgNegFear).history.F.map
      (fun s => rmGet s.values rR)) = [-1] ∧ ((-1 : ℚ) < 0) := by
  constructor
  · norm_num [runCascadeSimulation, simTrace, simInit, setupAdoption, setupFear,
      computeSpatialFocusWeights, rmGet, clamp01, List.enum, List.enumFrom,
      pow0, amb0, dp0, graph0, rR, fpNone, apNone, hwNone, rngHalf, thetaT0, cfgNegFear]
  · norm_num

/-- C2: the harmful-cascade flag of a run is true exactly when some snapshot
pair has an at-risk population share reaching the critical share. -/
theorem run_harmful_iff (jsPow : ℚ → ℚ → ℚ) (ambient : Nat → ℚ) (theta : Theta)
    (dp : DensityProvider) (graph : MobilityGraph) (cfg : SimConfig) :
    (runCascadeSimulation jsPow ambient theta dp graph cfg).metrics.harmfulCascadeOccurred
        = true ↔
      ∃ pair ∈ (runCascadeSimulation jsPow ambient theta dp graph cfg).history.A.zip
          (runCascadeSimulation jsPow ambient theta dp graph cfg).history.F,
        cfg.fearParams.criticalPopShare.getD (1 / 10) ≤
          snapshotPopAtRisk dp.listRegions cfg.popByRegion
            (cfg.fearParams.materialAdoption.getD (3 / 10))
            (cfg.fearParams.criticalFear.getD (7 / 10))
            pair.1.values pair.2.values / popTotalOf dp.listRegions cfg.popByRegion := by
  have hrfl : (runCascadeSimulation jsPow ambient theta dp graph cfg).metrics.harmfulCascadeOccurred
      = harmfulScan dp.listRegions cfg.popByRegion (popTotalOf dp.listRegions cfg.popByRegion)
        (cfg.fearParams.materialAdoption.getD (3 / 10))
        (cfg.fearParams.criticalFear.getD (7 / 10))
        (cfg.fearParams.criticalPopShare.getD (1 / 10))
        ((runCascadeSimulation jsPow ambient theta dp graph cfg).history.A.zip
          (runCascadeSimulation jsPow ambient theta dp graph cfg).history.F) := rfl
  rw [hrfl, harmfulScan_eq_any]
  simp [List.any_eq_true]

/-- C2 witness: a one-region run whose initial snapshot is already at risk. -/
theorem run_harmful_iff_witness :
    (runCascadeSimulation pow0 amb0 thetaT0 dp0 graph0 cfgW1).metrics.harmfulCascadeOccurred
      = true := by
  rw [run_harmful_iff]
  refine ⟨(Snapshot.mk 0 [(rR, 1 / 2)], Snapshot.mk 0 [(rR, 4 / 5)]), ?_, ?_⟩
  · norm_num [runCascadeSimulation, simTrace, simInit, setupAdoption, setupFear,
      computeSpatialFocusWeights, rmGet, clamp01, List.enum, List.enumFrom, List.zip,
      List.zipWith, pow0, amb0, dp0, graph0, rR, fpNone, apNone, hwNone, rngHalf,
      thetaT0, cfgW1]
  · norm_num [snapshotPopAtRisk, popTotalOf, rmGet, dp0, cfgW1, rR, fpNone]

/-- C4: with positive `dt` and non-negative `timeHorizon`, both histories have
exactly `floor(timeHorizon / dt) + 1` snapshots and the snapshot at index `k`
carries time `k * dt` and the state after exactly `k` committed updates. -/
theorem run_history_shape (jsPow : ℚ → ℚ → ℚ) (ambient : Nat → ℚ) (theta : Theta)
    (dp : DensityProvider) (graph : MobilityGraph) (cfg : SimConfig)
    (hdt : 0 < theta.dt) (hth : 0 ≤ theta.timeHorizon) :
    (runCascadeSimulation jsPow ambient theta dp graph cfg).history.A.length
        = (Int.floor (theta.timeHorizon / theta.dt)).toNat + 1
    ∧ (runCascadeSimulation jsPow ambient theta dp graph cfg).history.F.length
        = (Int.floor (theta.timeHorizon / theta.dt)).toNat + 1
    ∧ ∀ k ≤ (Int.floor (theta.timeHorizon / theta.dt)).toNat,
        (runCascadeSimulation jsPow ambient theta dp graph cfg).history.A[k]?
          = some (Snapshot.mk ((k : ℚ) * theta.dt)
              ((simStep jsPow dp graph theta.signalStrength cfg)^[k]
                (simInit ambient theta dp cfg)).A)
        ∧ (runCascadeSimulation jsPow ambient theta dp graph cfg).history.F[k]?
          = some (Snapshot.mk ((k : ℚ) * theta.dt)
              ((simStep jsPow dp graph theta.signalStrength cfg)^[k]
                (simInit ambient theta dp cfg)).F) := by
  have hq : 0 ≤ theta.timeHorizon / theta.dt := div_nonneg hth (le_of_lt hdt)
  have hT : ¬ Int.floor (theta.timeHorizon / theta.dt) < 0 :=
    not_lt.mpr (Int.floor_nonneg.mpr hq)
  exact ⟨run_histA_length jsPow ambient theta dp graph cfg hT,
    run_histF_length jsPow ambient theta dp graph cfg hT,
    fun k hk => ⟨run_histA_getElem? jsPow ambient theta dp graph cfg hT k hk,
      run_histF_getElem? jsPow ambient theta dp graph cfg hT k hk⟩⟩

/-- C4 witness: a run with `timeHorizon = 2`, `dt = 1` has 3 snapshots. -/
theorem run_history_shape_witness :
    (runCascadeSimulation pow0 amb0 thetaT2 dp0 graph0 cfgW1).history.A.length = 3 := by
  have h := (run_history_shape pow0 amb0 thetaT2 dp0 graph0 cfgW1
    (by norm_num [thetaT2]) (by norm_num [thetaT2])).1
  have h2 : (Int.floor (thetaT2.timeHorizon / thetaT2.dt)).toNat + 1 = 3 := by
    norm_num [thetaT2]
    rfl
  rw [h, h2]

/-- C5 (amended): a run is independent of the ambient `Math.random` stream
whenever `rngFactory` is configured; with identical theta, config, graph and
density provider the two invocations coincide. -/
theorem run_deterministic_with_factory (jsPow : ℚ → ℚ → ℚ) (amb1 amb2 : Nat → ℚ)
    (theta : Theta) (dp : DensityProvider) (graph : MobilityGraph) (cfg : SimConfig)
    (hfac : cfg.rngFactory.isSome = true) :
    runCascadeSimulation jsPow amb1 theta dp graph cfg
      = runCascadeSimulation jsPow amb2 theta dp graph cfg := by
  obtain ⟨f, hf⟩ := Option.isSome_iff_exists.mp hfac
  simp only [runCascadeSimulation, simInit, hf]

/-- C5 witness: two invocations with different ambient streams but a seeded
factory coincide. -/
theorem run_deterministic_with_factory_witness :
    runCascadeSimulation pow0 ambLo thetaT0 dp0 graph0 cfgW1
      = runCascadeSimulation pow0 ambHi thetaT0 dp0 graph0 cfgW1 :=
  run_deterministic_with_factory pow0 ambLo ambHi thetaT0 dp0 graph0 cfgW1 rfl

/-- C5 counterexample: without `rngFactory`, the run consumes `Math.random`,
and two invocations with identical theta, config, graph and provider differ. -/
theorem run_ambient_dependent :
    ¬ (runCascadeSimulation pow0 ambLo thetaT0 dp0 graph0 cfgNoRng
        = runCascadeSimulation pow0 ambHi thetaT0 dp0 graph0 cfgNoRng) := by
  intro h
  have h2 := congrArg (fun res => res.history.A.map (fun s => rmGet s.values rR)) h
  have hLo : (runCascadeSimulation pow0 ambLo thetaT0 dp0 graph0 cfgNoRng).history.A.map
      (fun s => rmGet s.values rR) = [9 / 20] := by
    norm_num [runCascadeSimulation, simTrace, simInit, setupAdoption, setupFear,
      computeSpatialFocusWeights, rmGet, clamp01, List.enum, List.enumFrom,
      pow0, ambLo, dp0, graph0, rR, fpNone, apNone, hwNone, thetaT0, cfgNoRng]
  have hHi : (runCascadeSimulation pow0 ambHi thetaT0 dp0 graph0 cfgNoRng).history.A.map
      (fun s => rmGet s.values rR) = [11 / 20] := by
    norm_num [runCascadeSimulation, simTrace, simInit, setupAdoption, setupFear,
      computeSpatialFocusWeights, rmGet, clamp01, List.enum, List.enumFrom,
      pow0, ambHi, dp0, graph0, rR, fpNone, apNone, hwNone, thetaT0, cfgNoRng]
  have h3 : (runCascadeSimulation pow0 ambLo thetaT0 dp0 graph0 cfgNoRng).history.A.map
        (fun s => rmGet s.values rR)
      = (runCascadeSimulation pow0 ambHi thetaT0 dp0 graph0 cfgNoRng).history.A.map
        (fun s => rmGet s.values rR) := h2
  rw [hLo, hHi] at h3
  norm_num at h3

/-- C9 (amended): adoption is non-decreasing between consecutive snapshots when
the signal, mobility weights, densities and the adoption parameters are
non-negative, the power primitive preserves non-negativity (as `Math.pow`
does), and the supplied initial fears are non-negative. -/
theorem run_adoption_monotone (jsPow : ℚ → ℚ → ℚ) (ambient : Nat → ℚ) (theta : Theta)
    (dp : DensityProvider) (graph : MobilityGraph) (cfg : SimConfig)
    (hpow : ∀ x y, 0 ≤ x → 0 ≤ jsPow x y)
    (hsig : 0 ≤ theta.signalStrength)
    (hmob : ∀ p ∈ graph, ∀ e ∈ p.2, 0 ≤ e.weight)
    (hden : ∀ r, 0 ≤ dp.getDensity r 0)
    (hES : 0 ≤ cfg.adoptionParams.exposureScale.getD 1)
    (hFS : 0 ≤ cfg.adoptionParams.fearSensitivity.getD 1)
    (hMR : 0 ≤ cfg.adoptionParams.maxRate.getD (1 / 5))
    (hLW : 0 ≤ cfg.adoptionParams.localWeight.getD 1)
    (hIW : 0 ≤ cfg.adoptionParams.importedWeight.getD 1)
    (hBC : 0 ≤ cfg.adoptionParams.baseContact.getD (1 / 100))
    (hF0 : ∀ p ∈ cfg.initialFearByRegion, 0 ≤ p.2) :
    ∀ (k : Nat) (snapK snapK1 : Snapshot),
      (runCascadeSimulation jsPow ambient theta dp graph cfg).history.A[k]? = some snapK →
      (runCascadeSimulation jsPow ambient theta dp graph cfg).history.A[k + 1]? = some snapK1 →
      ∀ r, rmGet snapK.values r ≤ rmGet snapK1.values r := by
  intro k snapK snapK1 hk hk1 r
  by_cases hT : Int.floor (theta.timeHorizon / theta.dt) < 0
  · exfalso
    have hnil : (runCascadeSimulation jsPow ambient theta dp graph cfg).history.A = [] := by
      show ((if Int.floor (theta.timeHorizon / theta.dt) < 0 then []
        else simTrace (simStep jsPow dp graph theta.signalStrength cfg)
          (Int.floor (theta.timeHorizon / theta.dt)).toNat
          (simInit ambient theta dp cfg)).enum.map
        (fun p => Snapshot.mk ((p.1 : ℚ) * theta.dt) p.2.A)) = []
      rw [if_pos hT]
      rfl
    rw [hnil] at hk
    cases hk
  · have hlen := run_histA_length jsPow ambient theta dp graph cfg hT
    have hk1lt : k + 1 < (runCascadeSimulation jsPow ambient theta dp graph cfg).history.A.length := by
      by_contra hc
      rw [List.getElem?_eq_none (Nat.le_of_not_lt hc)] at hk1
      cases hk1
    rw [hlen] at hk1lt
    have hkle : k ≤ (Int.floor (theta.timeHorizon / theta.dt)).toNat := by omega
    have hk1le : k + 1 ≤ (Int.floor (theta.timeHorizon / theta.dt)).toNat := by omega
    rw [run_histA_getElem? jsPow ambient theta dp graph cfg hT k hkle] at hk
    rw [run_histA_getElem? jsPow ambient theta dp graph cfg hT (k + 1) hk1le] at hk1
    have hsK := Option.some.inj hk
    have hsK1 := Option.some.inj hk1
    rw [← hsK, ← hsK1]
    have hWF := iterate_WF jsPow ambient theta dp graph cfg hF0 k
    have hmono := simStep_A_mono jsPow dp graph theta.signalStrength cfg
      ((simStep jsPow dp graph theta.signalStrength cfg)^[k] (simInit ambient theta dp cfg))
      hWF hpow hsig hmob hden hES hFS hMR hLW hIW hBC r
    rw [Function.iterate_succ_apply']
    exact hmono

/-- C9 witness: in a run with non-negative initial fear, the one-region
adoption value does not decrease from snapshot 0 to snapshot 1. -/
theorem run_adoption_monotone_witness :
    (runCascadeSimulation pow0 amb0 thetaT1 dp0 graph0 cfgW1).history.A[0]?
        = some (Snapshot.mk 0 [(rR, 1 / 2)])
    ∧ (runCascadeSimulation pow0 amb0 thetaT1 dp0 graph0 cfgW1).history.A[1]?
        = some (Snapshot.mk 1 [(rR, 361 / 720)])
    ∧ rmGet [(rR, 1 / 2)] rR ≤ rmGet [(rR, 361 / 720)] rR := by
  have hh : (runCascadeSimulation pow0 amb0 thetaT1 dp0 graph0 cfgW1).history.A
      = [Snapshot.mk 0 [(rR, 1 / 2)], Snapshot.mk 1 [(rR, 361 / 720)]] := by
    norm_num [runCascadeSimulation, simTrace, simInit, simStep, setupAdoption, setupFear,
      computeSpatialFocusWeights, computeExposure, localContactFunction, reverseEdgesForRegion,
      adoptionIncrement, computeHarmSignal, fearIncrement, rmGet, clamp01, List.enum,
      List.enumFrom, pow0, amb0, dp0, graph0, rR, fpNone, apNone, hwNone, rngHalf,
      thetaT1, cfgW1]
  have h0 : (runCascadeSimulation pow0 amb0 thetaT1 dp0 graph0 cfgW1).history.A[0]?
      = some (Snapshot.mk 0 [(rR, 1 / 2)]) := by rw [hh]; rfl
  have h1 : (runCascadeSimulation pow0 amb0 thetaT1 dp0 graph0 cfgW1).history.A[1]?
      = some (Snapshot.mk 1 [(rR, 361 / 720)]) := by rw [hh]; rfl
  refine ⟨h0, h1, ?_⟩
  exact run_adoption_monotone pow0 amb0 thetaT1 dp0 graph0 cfgW1
    (fun x y hx => hx)
    (by norm_num [thetaT1])
    (fun p hp => absurd hp (List.not_mem_nil p))
    (fun r => le_refl 0)
    (by norm_num [cfgW1, apNone])
    (by norm_num [cfgW1, apNone])
    (by norm_num [cfgW1, apNone])
    (by norm_num [cfgW1, apNone])
    (by norm_num [cfgW1, apNone])
    (by norm_num [cfgW1, apNone])
    (fun p hp => by rcases List.mem_singleton.mp hp with rfl; norm_num)
    0 (Snapshot.mk 0 [(rR, 1 / 2)]) (Snapshot.mk 1 [(rR, 361 / 720)]) h0 h1 rR

/-- C9 counterexample: with a negative supplied initial fear (a case the claim
as stated does not exclude) and all listed parameters non-negative, the
adoption value strictly decreases from snapshot 0 to snapshot 1. -/
theorem run_adoption_decreases :
    ((runCascadeSimulation pow0 amb0 thetaT1 dp0 graph0 cfgC9).history.A.map
      (fun s => rmGet s.values rR)) = [1 / 2, 199 / 400]
    ∧ ¬ ((1 : ℚ) / 2 ≤ 199 / 400)
    ∧ 0 ≤ thetaT1.signalStrength
    ∧ 0 ≤ cfgC9.adoptionParams.fearSensitivity.getD 1
    ∧ 0 ≤ cfgC9.adoptionParams.baseContact.getD (1 / 100) := by
  refine ⟨?_, by norm_num, by norm_num [thetaT1], by norm_num [cfgC9, apFear2],
    by norm_num [cfgC9, apFear2]⟩
  norm_num [runCascadeSimulation, simTrace, simInit, simStep, setupAdoption, setupFear,
    computeSpatialFocusWeights, computeExposure, localContactFunction, reverseEdgesForRegion,
    adoptionIncrement, computeHarmSignal, fearIncrement, rmGet, clamp01, List.enum,
    List.enumFrom, pow0, amb0, dp0, graph0, rR, fpNone, apNone, apFear2, hwNone, rngHalf,
    thetaT1, cfgC9]

/-- C3: the response surface is the nested flat map over seedFractions, then
signalStrengths, then spatialFocusOptions (so it has exactly the product
number of cells in that order), each cell aggregating the `runsPerPoint` runs
with `randomSeed = 0 .. runsPerPoint - 1`, and each cell's
`probabilityHarmful` is the harmful-run count divided by `runsPerPoint`. -/
theorem surface_structure (jsPow : ℚ → ℚ → ℚ) (ambient : Nat → ℚ)
    (grid : ParamGrid) (sc : SurfaceConfig) :
    buildResponseSurface jsPow ambient grid sc
        = grid.seedFractions.flatMap (fun sf =>
            grid.signalStrengths.flatMap (fun ss =>
              grid.spatialFocusOptions.map (fun focus =>
                ({ seedFraction := sf, signalStrength := ss, spatialFocus := focus,
                   stats := aggregateMetrics (cellRuns jsPow ambient sc sf ss focus) }
                 : SurfaceCell))))
    ∧ (buildResponseSurface jsPow ambient grid sc).length
        = grid.seedFractions.length
            * (grid.signalStrengths.length * grid.spatialFocusOptions.length)
    ∧ (∀ sf ss focus, cellRuns jsPow ambient sc sf ss focus
        = (List.range sc.runsPerPoint).map (fun k =>
            (runCascadeSimulation jsPow ambient
              { seedFraction := sf, spatialFocus := focus, signalStrength := ss,
                timeHorizon := sc.baseSimConfig.timeHorizon, dt := sc.baseSimConfig.dt,
                randomSeed := some k }
              sc.densityProvider sc.mobilityGraph sc.baseSimConfig.core).metrics))
    ∧ ∀ cell ∈ buildResponseSurface jsPow ambient grid sc,
        cell.stats.probabilityHarmful
          = (((cellRuns jsPow ambient sc cell.seedFraction cell.signalStrength
                cell.spatialFocus).filter
              (fun m => m.harmfulCascadeOccurred)).length : ℚ) / (sc.runsPerPoint : ℚ) := by
  obtain ⟨sfs, sss, focs⟩ := grid
  have hin : ∀ (sf ss : ℚ) (acc : List SurfaceCell),
      focs.foldl (fun acc3 focus =>
        acc3 ++ [({ seedFraction := sf, signalStrength := ss, spatialFocus := focus,
                    stats := aggregateMetrics (cellRuns jsPow ambient sc sf ss focus) }
                  : SurfaceCell)]) acc
      = acc ++ focs.map (fun focus =>
          ({ seedFraction := sf, signalStrength := ss, spatialFocus := focus,
             stats := aggregateMetrics (cellRuns jsPow ambient sc sf ss focus) }
           : SurfaceCell)) := by
    intro sf ss acc
    rw [foldl_append_blocks _
      (fun focus => [({ seedFraction := sf, signalStrength := ss, spatialFocus := focus,
                        stats := aggregateMetrics (cellRuns jsPow ambient sc sf ss focus) }
                      : SurfaceCell)])
      (fun _ _ => rfl), flatMap_singleton_map]
  have hmid : ∀ (sf : ℚ) (acc : List SurfaceCell),
      sss.foldl (fun acc2 ss => focs.foldl (fun acc3 focus =>
        acc3 ++ [({ seedFraction := sf, signalStrength := ss, spatialFocus := focus,
                    stats := aggregateMetrics (cellRuns jsPow ambient sc sf ss focus) }
                  : SurfaceCell)]) acc2) acc
      = acc ++ sss.flatMap (fun ss => focs.map (fun focus =>
          ({ seedFraction := sf, signalStrength := ss, spatialFocus := focus,
             stats := aggregateMetrics (cellRuns jsPow ambient sc sf ss focus) }
           : SurfaceCell))) := by
    intro sf acc
    exact foldl_append_blocks _ _ (fun acc2 ss => hin sf ss acc2) sss acc
  have hmain : buildResponseSurface jsPow ambient ⟨sfs, sss, focs⟩ sc
      = sfs.flatMap (fun sf => sss.flatMap (fun ss => focs.map (fun focus =>
          ({ seedFraction := sf, signalStrength := ss, spatialFocus := focus,
             stats := aggregateMetrics (cellRuns jsPow ambient sc sf ss focus) }
           : SurfaceCell)))) := by
    show sfs.foldl _ [] = _
    rw [foldl_append_blocks _ _ (fun acc sf => hmid sf acc) sfs []]
    rfl
  refine ⟨hmain, ?_, fun sf ss focus => rfl, ?_⟩
  · rw [hmain, List.length_flatMap]
    have hmapc2 : sfs.map (List.length ∘ (fun sf => sss.flatMap (fun ss => focs.map (fun focus =>
        ({ seedFraction := sf, signalStrength := ss, spatialFocus := focus,
           stats := aggregateMetrics (cellRuns jsPow ambient sc sf ss focus) }
         : SurfaceCell)))))
        = sfs.map (fun _ => sss.length * focs.length) := by
      refine List.map_congr_left (fun sf _ => ?_)
      show (sss.flatMap (fun ss => focs.map (fun focus =>
        ({ seedFraction := sf, signalStrength := ss, spatialFocus := focus,
           stats := aggregateMetrics (cellRuns jsPow ambient sc sf ss focus) }
         : SurfaceCell)))).length = sss.length * focs.length
      rw [List.length_flatMap]
      have hmapc : sss.map (List.length ∘ (fun ss => focs.map (fun focus =>
          ({ seedFraction := sf, signalStrength := ss, spatialFocus := focus,
             stats := aggregateMetrics (cellRuns jsPow ambient sc sf ss focus) }
           : SurfaceCell))))
          = sss.map (fun _ => focs.length) := by
        refine List.map_congr_left (fun ss _ => ?_)
        simp
      rw [hmapc, sum_map_const_nat]
    rw [hmapc2, sum_map_const_nat]
  · intro cell hcell
    rw [hmain] at hcell
    obtain ⟨sf, _, hcell2⟩ := List.mem_flatMap.mp hcell
    obtain ⟨ss, _, hcell3⟩ := List.mem_flatMap.mp hcell2
    obtain ⟨focus, _, rfl⟩ := List.mem_map.mp hcell3
    show (aggregateMetrics (cellRuns jsPow ambient sc sf ss focus)).probabilityHarmful = _
    simp only [aggregateMetrics, cellRuns, List.length_map, List.length_range]
    cases hn : sc.runsPerPoint with
    | zero => simp
    | succ m => simp [Nat.succ_ne_zero]

/-- C3 witness: a one-point grid yields exactly one cell. -/
theorem surface_structure_witness :
    (buildResponseSurface pow0 amb0 gridW scW).length = 1 := by
  have h := (surface_structure pow0 amb0 gridW scW).2.1
  rw [h]
  norm_num [gridW]

/-- The failure branch of the threshold deriver. -/
lemma derive_fail_spec (surface : List SurfaceCell) (rc : RiskConstraints)
    (h : (surface.filter (cellIsSafe rc)).isEmpty = true) :
    deriveRegulatoryThresholds surface rc =
      ({ safe := false, message := some noSafeRegionMessage, thresholds := none }, surface) := by
  simp only [deriveRegulatoryThresholds, if_pos h]

/-- The success branch of the threshold deriver. -/
lemma derive_success_spec (surface : List SurfaceCell) (rc : RiskConstraints)
    (h : ¬ (surface.filter (cellIsSafe rc)).isEmpty = true) :
    deriveRegulatoryThresholds surface rc =
      ({ safe := true, message := none,
         thresholds := some ((groupByFocusKey (surface.filter (cellIsSafe rc))).map
           (fun g => thresholdForGroup rc g.1 g.2)) },
       surface.map (fun c => if cellIsSafe rc c then sortCellFocus c else c)) := by
  simp only [deriveRegulatoryThresholds, if_neg h]

/-- C6: the deriver returns the structured no-safe-region failure value exactly
when no surface cell meets both risk ceilings (`maxMeanGlobalFear` defaulting
to 1), and otherwise returns `safe = true` with a non-null threshold list;
both outcomes are ordinary return values of the total function. -/
theorem derive_no_safe_result (surface : List SurfaceCell) (rc : RiskConstraints) :
    ((deriveRegulatoryThresholds surface rc).1
        = { safe := false, message := some noSafeRegionMessage, thresholds := none } ↔
      ∀ c ∈ surface, ¬ (c.stats.probabilityHarmful ≤ rc.maxHarmProbability ∧
        c.stats.meanGlobalPeakFear ≤ rc.maxMeanGlobalFear.getD 1))
    ∧ ((∃ c ∈ surface, c.stats.probabilityHarmful ≤ rc.maxHarmProbability ∧
        c.stats.meanGlobalPeakFear ≤ rc.maxMeanGlobalFear.getD 1) →
      (deriveRegulatoryThresholds surface rc).1.safe = true
      ∧ (deriveRegulatoryThresholds surface rc).1.thresholds ≠ none) := by
  by_cases hemp : (surface.filter (cellIsSafe rc)).isEmpty = true
  · have hall : ∀ c ∈ surface, ¬ (c.stats.probabilityHarmful ≤ rc.maxHarmProbability ∧
        c.stats.meanGlobalPeakFear ≤ rc.maxMeanGlobalFear.getD 1) := by
      intro c hc hcontra
      have hnil := List.isEmpty_iff.mp hemp
      have := List.filter_eq_nil_iff.mp hnil c hc
      exact this ((cellIsSafe_iff rc c).mpr hcontra)
    rw [derive_fail_spec surface rc hemp]
    exact ⟨⟨fun _ => hall, fun _ => rfl⟩,
      fun ⟨c, hc, hsafe⟩ => absurd hsafe (hall c hc)⟩
  · rw [derive_success_spec surface rc hemp]
    constructor
    · constructor
      · intro h
        cases h
      · intro hall
        exfalso
        have hne : surface.filter (cellIsSafe rc) ≠ [] :=
          fun h2 => hemp (List.isEmpty_iff.mpr h2)
        obtain ⟨c, hc⟩ := List.exists_mem_of_ne_nil _ hne
        have hmem := List.mem_filter.mp hc
        exact hall c hmem.1 ((cellIsSafe_iff rc c).mp hmem.2)
    · intro _
      exact ⟨rfl, fun h => by cases h⟩

/-- C6 witness: one safe cell yields the safe outcome. -/
theorem derive_no_safe_result_witness :
    (deriveRegulatoryThresholds [cellPlain] rcHalf).1.safe = true := by
  refine ((derive_no_safe_result [cellPlain] rcHalf).2 ⟨cellPlain, ?_, ?_⟩).1
  · exact List.mem_singleton.mpr rfl
  · constructor
    · norm_num [cellPlain, statsLow, rcHalf]
    · norm_num [cellPlain, statsLow, rcHalf]

/-- Sums of pointwise quotients. -/
lemma sum_map_div (l : List String) (h : String → ℚ) (c : ℚ) :
    (l.map (fun r => h r / c)).sum = (l.map h).sum / c := by
  induction l with
  | nil => simp
  | cons x xs ih => simp [ih, add_div]

/-- C7 (amended): for an `explicit` focus whose weight map has duplicate-free
keys that all occur in the duplicate-free region list and whose raw weights
have a non-zero sum, the computed weights sum to exactly 1 over the regions;
regions absent from the map always receive weight 0. -/
theorem explicit_weights (regions : List String) (sf : SpatialFocus)
    (popByRegion : RegionMap) (wmap : List (String × ℚ))
    (hty : sf.type = explicitTag) (hw : sf.weights = some wmap)
    (hnd : regions.Nodup) (hkeys : ∀ p ∈ wmap, p.1 ∈ regions)
    (hknd : (wmap.map Prod.fst).Nodup)
    (hsum : (wmap.map Prod.snd).sum ≠ 0) :
    ((regions.map (fun r =>
        rmGet (computeSpatialFocusWeights regions (some sf) popByRegion) r)).sum = 1)
    ∧ ∀ r ∈ regions, r ∉ wmap.map Prod.fst →
        rmGet (computeSpatialFocusWeights regions (some sf) popByRegion) r = 0 := by
  have hbranch : computeSpatialFocusWeights regions (some sf) popByRegion
      = regions.map (fun r => (r, rmGet wmap r / (wmap.map Prod.snd).sum)) := by
    simp only [computeSpatialFocusWeights]
    rw [if_neg (by rw [hty]; decide), if_pos ⟨hty, by rw [hw]; rfl⟩, hw]
    simp only [Option.getD_some]
    rw [if_neg hsum]
  rw [hbranch]
  constructor
  · have hcong : regions.map (fun r =>
        rmGet (regions.map (fun r2 => (r2, rmGet wmap r2 / (wmap.map Prod.snd).sum))) r)
        = regions.map (fun r => rmGet wmap r / (wmap.map Prod.snd).sum) :=
      List.map_congr_left (fun r hr => rmGet_map_self _ hr)
    rw [hcong, sum_map_div, sum_rmGet_eq_sum_values wmap regions hnd hkeys hknd,
      div_self hsum]
  · intro r hr hnotkey
    rw [rmGet_map_self _ hr, rmGet_not_key hnotkey, zero_div]

/-- C7 witness: the spec example, explicit weights 2 and 2 over two regions,
normalizes to total 1. -/
theorem explicit_weights_witness :
    (([idA, idB].map (fun r =>
      rmGet (computeSpatialFocusWeights [idA, idB] (some sfExpl22) []) r)).sum = 1) :=
  (explicit_weights [idA, idB] sfExpl22 [] [(idA, 2), (idB, 2)] rfl rfl
    (by decide) (by decide) (by decide) (by norm_num)).1

/-- C7 counterexample: a weight map key outside the region list makes the
listed-region weights sum to 1/2, not 1. -/
theorem explicit_weights_stray_key :
    (([idA].map (fun r =>
      rmGet (computeSpatialFocusWeights [idA] (some sfExplStray) []) r)).sum = 1 / 2)
    ∧ ¬ ((1 : ℚ) / 2 = 1) := by
  constructor
  · norm_num [computeSpatialFocusWeights, sfExplStray, rmGet, idA, idB, explicitTag,
      uniformTag]
  · norm_num

/-- C8 (amended): two safe kernel cells whose center-id lists are permutations
of each other get the same canonical key (center ids sorted, comma-joined,
prefixed with the kernel tag), and the derived threshold list has exactly one
record per distinct canonical key of the safe cells. -/
theorem derive_grouping (surface : List SurfaceCell) (rc : RiskConstraints)
    (c1 c2 : SurfaceCell)
    (h1 : c1 ∈ surface.filter (cellIsSafe rc)) (h2 : c2 ∈ surface.filter (cellIsSafe rc))
    (s1 s2 : SpatialFocus)
    (hs1 : c1.spatialFocus = some s1) (hs2 : c2.spatialFocus = some s2)
    (hk1 : s1.type = kernelTag) (hk2 : s2.type = kernelTag)
    (hperm : (s1.centerIds.getD []).Perm (s2.centerIds.getD [])) :
    spatialFocusKey c1.spatialFocus = spatialFocusKey c2.spatialFocus
    ∧ ∀ ts, (deriveRegulatoryThresholds surface rc).1.thresholds = some ts →
        (ts.map (fun th => th.spatialFocusKey)).Nodup
        ∧ ∀ k, (k ∈ ts.map (fun th => th.spatialFocusKey) ↔
            k ∈ (surface.filter (cellIsSafe rc)).map
              (fun c => spatialFocusKey c.spatialFocus)) := by
  constructor
  · rw [hs1, hs2]
    simp only [spatialFocusKey, if_pos hk1, if_pos hk2]
    rw [sortIds_perm_eq hperm]
  · intro ts hts
    by_cases hemp : (surface.filter (cellIsSafe rc)).isEmpty = true
    · rw [derive_fail_spec surface rc hemp] at hts
      cases hts
    · rw [derive_success_spec surface rc hemp] at hts
      have hts2 := Option.some.inj hts
      have hmapkeys : ((groupByFocusKey (surface.filter (cellIsSafe rc))).map
          (fun g => thresholdForGroup rc g.1 g.2)).map (fun th => th.spatialFocusKey)
          = (groupByFocusKey (surface.filter (cellIsSafe rc))).map Prod.fst := by
        rw [List.map_map]
        exact List.map_congr_left (fun g _ => rfl)
      rw [← hts2, hmapkeys]
      exact ⟨groupByFocusKey_keys_nodup _, fun k => groupByFocusKey_keys_mem _ k⟩

/-- C8 witness: safe kernel cells with centers `[A, B]` and `[B, A]` share
their canonical key. -/
theorem derive_grouping_witness :
    spatialFocusKey cellKAB.spatialFocus = spatialFocusKey cellKBA.spatialFocus := by
  have h1 : cellKAB ∈ [cellKAB, cellKBA].filter (cellIsSafe rcHalf) := by
    rw [List.mem_filter]
    refine ⟨by norm_num, ?_⟩
    norm_num [cellIsSafe, cellKAB, statsLow, rcHalf]
  have h2 : cellKBA ∈ [cellKAB, cellKBA].filter (cellIsSafe rcHalf) := by
    rw [List.mem_filter]
    refine ⟨by norm_num, ?_⟩
    norm_num [cellIsSafe, cellKBA, statsLow, rcHalf]
  exact (derive_grouping [cellKAB, cellKBA] rcHalf cellKAB cellKBA h1 h2
    focusAB focusBA rfl rfl rfl rfl (List.Perm.swap idB idA [])).1

/-- C8 counterexample: center-id lists `[A, A]` and `[A]` are equal as sets but
not as multisets; the code gives them different canonical keys and two
threshold records, refuting the set-equality phrasing of the claim. -/
theorem derive_grouping_multiset_sensitive :
    (([idA, idA] : List String).toFinset = ([idA] : List String).toFinset)
    ∧ cellIsSafe rcHalf cellKAA = true
    ∧ cellIsSafe rcHalf cellKA1 = true
    ∧ spatialFocusKey cellKAA.spatialFocus ≠ spatialFocusKey cellKA1.spatialFocus
    ∧ ((deriveRegulatoryThresholds [cellKAA, cellKA1] rcHalf).1.thresholds.map
        List.length) = some 2 := by
  have hkey_ne : spatialFocusKey cellKAA.spatialFocus
      ≠ spatialFocusKey cellKA1.spatialFocus := by decide
  refine ⟨by decide, ?_, ?_, hkey_ne, ?_⟩
  · norm_num [cellIsSafe, cellKAA, statsLow, rcHalf]
  · norm_num [cellIsSafe, cellKA1, statsLow, rcHalf]
  · have hsafeAA : cellIsSafe rcHalf cellKAA = true := by
      norm_num [cellIsSafe, cellKAA, statsLow, rcHalf]
    have hsafeA1 : cellIsSafe rcHalf cellKA1 = true := by
      norm_num [cellIsSafe, cellKA1, statsLow, rcHalf]
    have hfilter : [cellKAA, cellKA1].filter (cellIsSafe rcHalf) = [cellKAA, cellKA1] := by
      simp [List.filter, hsafeAA, hsafeA1]
    have hne : ¬ ([cellKAA, cellKA1].filter (cellIsSafe rcHalf)).isEmpty = true := by
      rw [hfilter]
      decide
    rw [derive_success_spec [cellKAA, cellKA1] rcHalf hne, hfilter]
    simp only [groupByFocusKey, List.foldl_cons, List.foldl_nil, pushGroup]
    rw [if_neg hkey_ne]
    rfl

/-- C10 (amended): the post-call surface sorts the center ids of exactly the
cells that pass the risk filter (in particular nothing is sorted when no cell
is safe), every other cell field is unchanged, and non-kernel focuses are
untouched. -/
theorem derive_surface_mutation (surface : List SurfaceCell) (rc : RiskConstraints) :
    ((deriveRegulatoryThresholds surface rc).2
        = surface.map (fun c => if cellIsSafe rc c then sortCellFocus c else c))
    ∧ (∀ c : SurfaceCell, (sortCellFocus c).seedFraction = c.seedFraction
        ∧ (sortCellFocus c).signalStrength = c.signalStrength
        ∧ (sortCellFocus c).stats = c.stats)
    ∧ (∀ (s : SpatialFocus) (ids : List String), s.type = kernelTag →
        s.centerIds = some ids →
        sortFocusCenterIds (some s) = some { s with centerIds := some (sortIds ids) })
    ∧ (∀ s : SpatialFocus, s.type ≠ kernelTag → sortFocusCenterIds (some s) = some s) := by
  refine ⟨?_, fun c => ⟨rfl, rfl, rfl⟩, ?_, ?_⟩
  · by_cases hemp : (surface.filter (cellIsSafe rc)).isEmpty = true
    · rw [derive_fail_spec surface rc hemp]
      have hall := List.filter_eq_nil_iff.mp (List.isEmpty_iff.mp hemp)
      have hmap : surface.map (fun c => if cellIsSafe rc c then sortCellFocus c else c)
          = surface.map (fun c => c) :=
        List.map_congr_left (fun c hc => if_neg (hall c hc))
      rw [hmap]
      simp
    · rw [derive_success_spec surface rc hemp]
  · intro s ids hty hids
    simp [sortFocusCenterIds, hty, hids]
  · intro s hty
    simp [sortFocusCenterIds, hty]

/-- C10 witness: the frame theorem applied to the kernel focus `[B, A]`. -/
theorem derive_surface_mutation_witness :
    sortFocusCenterIds (some focusBA)
      = some { focusBA with centerIds := some (sortIds [idB, idA]) } :=
  (derive_surface_mutation [] rcHalf).2.2.1 focusBA [idB, idA] rfl rfl

/-- C10 counterexample: a kernel cell that fails the risk filter keeps its
unsorted center ids after the call, refuting the claim that every kernel
cell's center ids get sorted in place. -/
theorem derive_filtered_kernel_not_sorted :
    (deriveRegulatoryThresholds [cellKBAbad] rcHalf).2 = [cellKBAbad]
    ∧ cellKBAbad.spatialFocus = some focusBA
    ∧ focusBA.centerIds = some [idB, idA]
    ∧ sortIds [idB, idA] = [idA, idB]
    ∧ ([idB, idA] : List String) ≠ [idA, idB] := by
  refine ⟨?_, rfl, rfl, by decide, by decide⟩
  have hnotsafe : cellIsSafe rcHalf cellKBAbad = false := by
    norm_num [cellIsSafe, cellKBAbad, statsHigh, rcHalf]
  have hfilter : [cellKBAbad].filter (cellIsSafe rcHalf) = [] := by
    simp [List.filter, hnotsafe]
  have hemp : ([cellKBAbad].filter (cellIsSafe rcHalf)).isEmpty = true := by
    rw [hfilter]
    rfl
  rw [derive_fail_spec [cellKBAbad] rcHalf hemp]
